import Mathlib

/-!
Verification of the command-intent resolution and line-based code mutation
engine of the Javis code-assistant repository
(`model/command_parser.py`, `model/code_analyzer.py`, `model/code_generator.py`,
and the libCST transformers of `javis.py`).

The Python code is shallowly embedded.  Source text is modelled as a list of
characters (`PyStr`); source files as lists of lines.  Python operations that
can raise an exception (attribute access on `None`, out-of-range indexing)
return `Except PyExn _`; Python operations that are total (slice extraction,
slice deletion, `list.insert`, which all clamp their indices) are modelled by
total functions with the same clamping semantics.  Character classification
(`str.isalnum`, `str.lower`) is modelled at ASCII precision, which covers every
identifier and command the engine manipulates.
-/

namespace JavisSpec

/-- Python strings are modelled as lists of characters. -/
abbrev PyStr := List Char

/-- Shorthand for embedding a string literal. -/
def pys (s : String) : PyStr := s.toList

/-- Uncaught Python exceptions that the embedded operations can raise. -/
inductive PyExn where
  /-- e.g. calling `.lower()` / `.capitalize()` / `.get(...)` on `None`
  or on a value of the wrong type. -/
  | attributeError : PyExn
  /-- out-of-range subscript on a list. -/
  | indexError : PyExn
  /-- e.g. using an unhashable value as a `dict` key, or `str + None`. -/
  | typeError : PyExn
deriving DecidableEq, Repr

/-- ASCII lower-casing of one character (models `str.lower` on the
identifiers and commands the engine works with). -/
def pyLowerC (c : Char) : Char :=
  if 'A' ≤ c ∧ c ≤ 'Z' then Char.ofNat (c.toNat + 32) else c

/-- ASCII upper-casing of one character. -/
def pyUpperC (c : Char) : Char :=
  if 'a' ≤ c ∧ c ≤ 'z' then Char.ofNat (c.toNat - 32) else c

/-- Models `str.lower`. -/
def pyLower (s : PyStr) : PyStr := s.map pyLowerC

/-- Python whitespace (the characters stripped by `str.split()` / `str.strip()`). -/
def pyIsSpace (c : Char) : Bool :=
  c = ' ' || c = '\t' || c = '\n' || c = '\r' || c = '\x0b' || c = '\x0c'

/-- Models `str.isalnum()` on a single character (ASCII precision). -/
def pyIsAlnum (c : Char) : Bool := c.isAlphanum

/-- Truthiness of an optional string (`None` and `""` are falsy). -/
def pyTruthyS : Option PyStr → Bool
  | none => false
  | some s => !s.isEmpty

/-- Truthiness of an optional list (`None` and `[]` are falsy). -/
def pyTruthyL {α : Type} : Option (List α) → Bool
  | none => false
  | some l => !l.isEmpty

/-- f-string rendering of an optional string (`None` prints as `None`). -/
def showOpt : Option PyStr → PyStr
  | none => pys "None"
  | some s => s

/-- Models `str.capitalize()` applied to an optional string; raises
`AttributeError` on `None` exactly as Python does. -/
def pyCapitalizeOpt : Option PyStr → Except PyExn PyStr
  | none => .error .attributeError
  | some [] => .ok []
  | some (c :: rest) => .ok (pyUpperC c :: rest.map pyLowerC)

/-- Models `str.strip()`. -/
def pyStrip (s : PyStr) : PyStr :=
  ((s.dropWhile pyIsSpace).reverse.dropWhile pyIsSpace).reverse

/-- Leading-whitespace prefix of a line: `CodeGenerator.get_indentation`
(`line[:len(line) - len(line.lstrip())]`). -/
def getIndentation (line : PyStr) : PyStr := line.takeWhile pyIsSpace

/-- Substring containment, Python's `needle in hay`. -/
def containsSub (needle : PyStr) : PyStr → Bool
  | [] => needle.isEmpty
  | c :: rest => needle.isPrefixOf (c :: rest) || containsSub needle rest

/-- Index of the first occurrence of `needle` in `hay`, if any. -/
def findIdx? (needle : PyStr) : PyStr → Option Nat
  | [] => if needle.isEmpty then some 0 else none
  | c :: rest =>
    if needle.isPrefixOf (c :: rest) then some 0
    else (findIdx? needle rest).map (· + 1)

/-- Python's `str.find(sub, start)` (result `-1` when absent).  The start
index is adjusted by Python's slice rules. -/
def pyFind (hay needle : PyStr) (start : Int) : Int :=
  let n : Int := hay.length
  let s0 : Int := if start < 0 then max 0 (n + start) else start
  if s0 > n then -1
  else
    match findIdx? needle (hay.drop s0.toNat) with
    | some i => s0 + i
    | none => -1

/-- Clamp an index for Python slice semantics: negative counts from the
end, and the result lands in `[0, n]`. -/
def pyClamp (n : Nat) (i : Int) : Nat :=
  if i < 0 then (max 0 (i + n)).toNat else (min i (n : Int)).toNat

/-- Python slice `l[a:b]` (total; clamps). -/
def pySlice {α : Type} (l : List α) (a b : Int) : List α :=
  let a' := pyClamp l.length a
  let b' := pyClamp l.length b
  (l.take b').drop a'

/-- Python slice `l[:b]`. -/
def pySliceTo {α : Type} (l : List α) (b : Int) : List α := pySlice l 0 b

/-- Python slice `l[a:]`. -/
def pySliceFrom {α : Type} (l : List α) (a : Int) : List α :=
  l.drop (pyClamp l.length a)

/-- Normalize a Python subscript: `some` of the non-negative position when
in range (negative indices count from the end), `none` when out of range. -/
def pyIdxNorm (n : Nat) (i : Int) : Option Nat :=
  if i < 0 then
    (if 0 ≤ i + n then some (i + n).toNat else none)
  else (if i < n then some i.toNat else none)

/-- Python subscript read `l[i]`; raises `IndexError` when out of range. -/
def pyGetI {α : Type} (l : List α) (i : Int) : Except PyExn α :=
  match pyIdxNorm l.length i with
  | some j =>
    match l.get? j with
    | some x => .ok x
    | none => .error .indexError
  | none => .error .indexError

/-- Python subscript write `l[i] = x`; raises `IndexError` when out of range. -/
def pySetI {α : Type} (l : List α) (i : Int) (x : α) : Except PyExn (List α) :=
  match pyIdxNorm l.length i with
  | some j => .ok (l.set j x)
  | none => .error .indexError

/-- Insertion at a clamped position, `List.insertIdx` written out. -/
def insertAtL {α : Type} : Nat → α → List α → List α
  | 0, x, l => x :: l
  | _ + 1, x, [] => [x]
  | n + 1, x, c :: rest => c :: insertAtL n x rest

/-- Python `list.insert(i, x)` (total; clamps at both ends). -/
def pyInsertI {α : Type} (l : List α) (i : Int) (x : α) : List α :=
  insertAtL (pyClamp l.length i) x l

/-- Python `del l[a:b]` (total; clamps). -/
def pyDelRangeI {α : Type} (l : List α) (a b : Int) : List α :=
  let a' := pyClamp l.length a
  let b' := pyClamp l.length b
  if a' < b' then l.take a' ++ l.drop b' else l

/-- Python `del l[i]`; raises `IndexError` when out of range. -/
def pyDelAtI {α : Type} (l : List α) (i : Int) : Except PyExn (List α) :=
  match pyIdxNorm l.length i with
  | some j => .ok (l.take j ++ l.drop (j + 1))
  | none => .error .indexError

/-- Models `code.split('\n')`. -/
def splitLines : PyStr → List PyStr
  | [] => [[]]
  | c :: rest =>
    if c = '\n' then [] :: splitLines rest
    else
      match splitLines rest with
      | [] => [[c]]
      | h :: t => (c :: h) :: t

/-- Models `'\n'.join(lines)`. -/
def joinLines : List PyStr → PyStr
  | [] => []
  | [x] => x
  | x :: rest => x ++ '\n' :: joinLines rest

/-- Models `sep.join(parts)`. -/
def joinWith (sep : PyStr) : List PyStr → PyStr
  | [] => []
  | [x] => x
  | x :: rest => x ++ sep ++ joinWith sep rest

/-- Models `str.split(sep)` for a non-empty separator, with explicit fuel
(initially the string length, which always suffices). -/
def splitOnAux (sep : PyStr) : Nat → PyStr → List PyStr
  | _, [] => [[]]
  | 0, l => [l]
  | fuel + 1, c :: rest =>
    if !sep.isEmpty && sep.isPrefixOf (c :: rest) then
      [] :: splitOnAux sep fuel ((c :: rest).drop sep.length)
    else
      match splitOnAux sep fuel rest with
      | [] => [[c]]
      | h :: t => (c :: h) :: t

/-- Models `str.split(sep)` for a non-empty separator. -/
def splitOnL (sep s : PyStr) : List PyStr := splitOnAux sep s.length s

/-- Helper for `str.split()`: split on runs of whitespace, no empty parts. -/
def splitWsAux (cur : PyStr) : PyStr → List PyStr
  | [] => if cur.isEmpty then [] else [cur.reverse]
  | c :: rest =>
    if pyIsSpace c then
      if cur.isEmpty then splitWsAux [] rest
      else cur.reverse :: splitWsAux [] rest
    else splitWsAux (c :: cur) rest

/-- Models `str.split()`. -/
def splitWs (s : PyStr) : List PyStr := splitWsAux [] s

end JavisSpec

namespace JavisSpec

/-! ## Structural Analyzer data model (`model/code_analyzer.py`)

`_get_node_location` copies `lineno` / `end_lineno` / `col_offset` /
`end_col_offset` off the AST node.  Modern CPython always provides the
`end_*` attributes, so the `hasattr` fallbacks are never taken. -/

/-- Location record produced by `CodeStructureExtractor._get_node_location`. -/
structure Loc where
  line_start : Int
  line_end : Int
  col_start : Int
  col_end : Int
deriving DecidableEq, Repr

/-- Entry of `classes[...].methods` and of the top-level `functions` list. -/
structure FunctionInfo where
  name : PyStr
  location : Loc
  arguments : List PyStr
deriving DecidableEq, Repr

/-- Entry of `classes[...].attributes`. -/
structure AttrInfo where
  name : PyStr
  location : Loc
deriving DecidableEq, Repr

/-- Entry of the `classes` map. -/
structure ClassInfo where
  name : PyStr
  location : Loc
  bases : List PyStr
  methods : List FunctionInfo
  attributes : List AttrInfo
deriving DecidableEq, Repr

/-- Entry of the `imports` list (plain import or from-import). -/
inductive ImportInfo where
  | imp (name : PyStr) (asname : Option PyStr)
  | fromImp (module : Option PyStr) (name : PyStr) (asname : Option PyStr)
deriving DecidableEq, Repr

/-! ## Python AST model

The analyzer consumes the output of `ast.parse`.  We embed the fragment of
the CPython AST it inspects: direct module children, direct class-body
members, and direct assignment statements in a constructor body.  Anything
else (expressions, async defs, nested content the analyzer never walks) is
`other`. -/

/-- Location attributes carried by a CPython AST node. -/
structure PyLoc where
  lineno : Int
  end_lineno : Int
  col_offset : Int
  end_col_offset : Int
deriving DecidableEq, Repr

/-- A base-class expression of a `ClassDef` as `_get_base_name` sees it:
a bare `ast.Name`, an `ast.Attribute` chain (whose innermost value may or
may not be a `Name`), or any other expression (stringified by `str`). -/
inductive PyBase where
  | nameB (id : PyStr)
  | attrB (root : Option PyStr) (attrs : List PyStr)
  | otherB (str : PyStr)
deriving DecidableEq, Repr

/-- An assignment target as the attribute detector sees it: an
`ast.Attribute` whose value is an `ast.Name` (e.g. `self.x`), or anything
else. -/
inductive PyAssignTarget where
  | attrOfName (valId : PyStr) (attr : PyStr)
  | otherTarget
deriving DecidableEq, Repr

/-- The statement fragment of the CPython AST the analyzer inspects. -/
inductive PyStmt where
  | functionDef (name : PyStr) (args : List PyStr) (body : List PyStmt) (loc : PyLoc)
  | classDef (name : PyStr) (bases : List PyBase) (body : List PyStmt) (loc : PyLoc)
  | assign (targets : List PyAssignTarget) (loc : PyLoc)
  | importS (names : List (PyStr × Option PyStr))
  | importFrom (module : Option PyStr) (names : List (PyStr × Option PyStr))
  | other

/-- A recoverable `SyntaxError` from `ast.parse`; `str` is the `str(e)`
rendering interpolated into the analyzer's message. -/
structure SyntaxErr where
  str : PyStr
  lineno : Option Int
  offset : Option Int
deriving DecidableEq, Repr

/-- The dictionary returned by `extract_structure`: either the error shape
(no `classes` / `functions` keys) or the success shape. -/
inductive AnalyzerResult where
  | error (message : PyStr) (line : Option Int) (offset : Option Int)
  | success (classes : List (PyStr × ClassInfo)) (functions : List FunctionInfo)
      (imports : List ImportInfo)

/-- The `status` field of the returned dictionary. -/
def AnalyzerResult.statusStr : AnalyzerResult → PyStr
  | .error _ _ _ => pys "error"
  | .success _ _ _ => pys "success"

/-- The `classes` key, when present. -/
def AnalyzerResult.classes? : AnalyzerResult → Option (List (PyStr × ClassInfo))
  | .error _ _ _ => none
  | .success c _ _ => some c

/-- The `functions` key, when present. -/
def AnalyzerResult.functions? : AnalyzerResult → Option (List FunctionInfo)
  | .error _ _ _ => none
  | .success _ f _ => some f

/-- Embeds `_get_node_location`. -/
def locOf (l : PyLoc) : Loc :=
  { line_start := l.lineno, line_end := l.end_lineno,
    col_start := l.col_offset, col_end := l.end_col_offset }

/-- Embeds `_get_base_name`: a `Name` gives its id; an `Attribute` chain is
joined with dots (prefixing the innermost `Name`'s id when there is one);
anything else falls back to `str(node)`. -/
def getBaseName : PyBase → PyStr
  | .nameB id => id
  | .attrB root attrs =>
    joinWith (pys ".") (match root with | some r => r :: attrs | none => attrs)
  | .otherB s => s

/-- Insert-or-replace into an association list keyed like a Python dict:
an existing key keeps its position and gets the new value, a new key is
appended. -/
def dictInsert {α : Type} (l : List (PyStr × α)) (k : PyStr) (v : α) :
    List (PyStr × α) :=
  match l with
  | [] => [(k, v)]
  | (k', v') :: rest =>
    if k' = k then (k, v) :: rest else (k', v') :: dictInsert rest k v

/-- First-match association-list lookup (Python dict subscript). -/
def dictLookup {α : Type} (l : List (PyStr × α)) (k : PyStr) : Option α :=
  match l with
  | [] => none
  | (k', v) :: rest => if k' = k then some v else dictLookup rest k

/-- The attributes contributed by one class-body member: for a method
named `__init__`, the `self.<name> = ...` targets of each direct `Assign`
statement of its body. -/
def attrsOfItem : PyStmt → List AttrInfo
  | .functionDef n _ body _ =>
    if n = pys "__init__" then
      body.flatMap fun stmt =>
        match stmt with
        | .assign targets l =>
          targets.filterMap fun t =>
            match t with
            | .attrOfName v a =>
              if v = pys "self" then some { name := a, location := locOf l }
              else none
            | .otherTarget => none
        | _ => []
    else []
  | _ => []

/-- The method entry contributed by one class-body member. -/
def methodOfItem : PyStmt → Option FunctionInfo
  | .functionDef n args _ l =>
    some { name := n, location := locOf l, arguments := args }
  | _ => none

/-- The `class_info` dictionary built for one `ClassDef` node. -/
def classInfoOf (name : PyStr) (bases : List PyBase) (body : List PyStmt)
    (l : PyLoc) : ClassInfo :=
  { name := name
    location := locOf l
    bases := bases.map getBaseName
    methods := body.filterMap methodOfItem
    attributes := body.flatMap attrsOfItem }

/-- One step of the `classes`-dictionary accumulation: a `ClassDef` child
is inserted (`structure["classes"][node.name] = class_info`), anything
else leaves the dictionary alone. -/
def classesStep (acc : List (PyStr × ClassInfo)) (s : PyStmt) :
    List (PyStr × ClassInfo) :=
  match s with
  | .classDef n bases body l => dictInsert acc n (classInfoOf n bases body l)
  | _ => acc

/-- The `classes` dictionary accumulated over the module's direct
children. -/
def classesOf (stmts : List PyStmt) : List (PyStr × ClassInfo) :=
  stmts.foldl classesStep []

/-- The top-level `functions` list. -/
def functionsOf (stmts : List PyStmt) : List FunctionInfo :=
  stmts.filterMap fun s =>
    match s with
    | .functionDef n args _ l =>
      some { name := n, location := locOf l, arguments := args }
    | _ => none

/-- The `imports` list. -/
def importsOf (stmts : List PyStmt) : List ImportInfo :=
  stmts.flatMap fun s =>
    match s with
    | .importS names => names.map fun p => ImportInfo.imp p.1 p.2
    | .importFrom m names => names.map fun p => ImportInfo.fromImp m p.1 p.2
    | _ => []

/-- Embeds `CodeStructureExtractor.extract_structure` composed with the
constructor's `ast.parse` call: on a parse failure the stored
`SyntaxError` becomes the error dictionary, otherwise the structure is
extracted from the direct children of the module. -/
def extractStructure (parsed : Except SyntaxErr (List PyStmt)) : AnalyzerResult :=
  match parsed with
  | .error e =>
    .error (pys "Syntax error: " ++ e.str) e.lineno e.offset
  | .ok stmts =>
    .success (classesOf stmts) (functionsOf stmts) (importsOf stmts)

end JavisSpec

namespace JavisSpec

/-! ## Code Mutator data model (`model/code_generator.py`)

The generator state (`original_code_lines`, `code_analysis`, `intent`) is
passed explicitly to each operation.  An intent is a string-keyed Python
dictionary; we model every key the generator reads as an optional field
(`none` = key absent).  Each operation returns `Except PyExn PyStr`: `.ok`
is the string Python returns (new source or an `"Error:"`-prefixed
message), `.error` is an uncaught Python exception. -/

/-- A dictionary entry of the intent's `methods` list
(`add_class` reads `name`/`params`/`body`, `implement_interface` reads
`name`/`parameters`/`body`). -/
structure MethodDict where
  name : Option PyStr := none
  params : Option (List PyStr) := none
  parameters : Option (List PyStr) := none
  body : Option PyStr := none
deriving DecidableEq, Repr

/-- An element of the intent's `methods` list: the parser may put either
strings (`apply_polymorphism` iterates method names) or dictionaries
(`add_class` / `implement_interface` call `.get` on them) there. -/
inductive PyMethodEntry where
  | pystr (s : PyStr)
  | pydict (d : MethodDict)
deriving DecidableEq, Repr

/-- A dictionary entry of the intent's `cases` list (`add_conditional`). -/
structure CaseSpec where
  pattern : Option PyStr := none
  body : Option PyStr := none
deriving DecidableEq, Repr

/-- The intent dictionary: every key any generator operation reads,
`none` meaning the key is absent. -/
structure Intent where
  action : Option PyStr := none
  method_name : Option PyStr := none
  target_class : Option PyStr := none
  parameters : Option (List PyStr) := none
  class_name : Option PyStr := none
  base_classes : Option (List PyStr) := none
  methods : Option (List PyMethodEntry) := none
  attributes : Option (List PyStr) := none
  attribute_name : Option PyStr := none
  default_value : Option PyStr := none
  add_parameter : Option Bool := none
  old_name : Option PyStr := none
  new_name : Option PyStr := none
  new_class_name : Option PyStr := none
  new_method_name : Option PyStr := none
  function_name : Option PyStr := none
  function_body : Option PyStr := none
  loop_type : Option PyStr := none
  target_type : Option PyStr := none
  target_name : Option PyStr := none
  iterator : Option PyStr := none
  iterable : Option PyStr := none
  condition : Option PyStr := none
  loop_body : Option PyStr := none
  conditional_type : Option PyStr := none
  conditions : Option (List PyStr) := none
  bodies : Option (List PyStr) := none
  match_subject : Option PyStr := none
  cases : Option (List CaseSpec) := none
  parent_class : Option PyStr := none
  interface_class : Option PyStr := none
  child_class : Option PyStr := none
deriving DecidableEq, Repr

/-- The analysis dictionary as the generator consumes it
(`code_analysis.get('classes', {})` / `.get('functions', [])`; an error
dictionary has neither key, hence the empty defaults). -/
structure GenAnalysis where
  classes : List (PyStr × ClassInfo) := []
  functions : List FunctionInfo := []
deriving DecidableEq, Repr

/-- Feeding `extract_structure` output into `load_analysis`. -/
def toGen : AnalyzerResult → GenAnalysis
  | .error _ _ _ => {}
  | .success c f _ => { classes := c, functions := f }

/-- The case-insensitive class lookup loop shared by several operations
(`for class_name in classes: if class_name.lower() == target.lower()`);
returns the canonical key together with its info, first match wins. -/
def findClassCI (classes : List (PyStr × ClassInfo)) (t : PyStr) :
    Option (PyStr × ClassInfo) :=
  match classes with
  | [] => none
  | (k, v) :: rest => if pyLower k = pyLower t then some (k, v) else findClassCI rest t

/-- Embeds `CodeGenerator.get_class_indentation`.  The `class_name` argument can
be `None` (e.g. when `target_class` was never extracted), in which case
the membership test fails and the default indentation is returned. -/
def getClassIndentation (lines : List PyStr) (analysis : GenAnalysis)
    (cn : Option PyStr) : PyStr :=
  let dflt := pys "    "
  match cn with
  | none => dflt
  | some c =>
    match dictLookup analysis.classes c with
    | none => dflt
    | some ci =>
      match ci.methods with
      | [] => dflt
      | m :: _ =>
        let li : Int := m.location.line_start - 1
        if 0 ≤ li ∧ li < (lines.length : Int) then
          getIndentation ((lines.get? li.toNat).getD [])
        else dflt

/-- Embeds `CodeGenerator.add_method`. -/
def addMethod (lines : List PyStr) (analysis : GenAnalysis) (intent : Intent) :
    Except PyExn PyStr :=
  if intent.action ≠ some (pys "add_method") then
    .ok (pys "Error: Intent is not add_method")
  else
    let method_name := intent.method_name
    let target_class := intent.target_class
    let parameters_raw := intent.parameters.getD []
    let parameters : List PyStr :=
      match parameters_raw with
      | [] => []
      | p0 :: _ =>
        match splitOnL (pys " to ") p0 with
        | [] => []
        | q0 :: _ => splitOnL (pys ", ") (pyStrip q0)
    let found := match target_class with
      | none => none
      | some t => dictLookup analysis.classes t
    match found with
    | none => .ok (pys "Error: Class " ++ showOpt target_class ++ pys " not found")
    | some ci =>
      let class_end_line := ci.location.line_end
      let indentation := getClassIndentation lines analysis target_class
      let param_str := pys "self" ++
        (if !parameters.isEmpty then pys ", " ++ joinWith (pys ", ") parameters else [])
      let new_method := indentation ++ pys "def " ++ showOpt method_name ++
        pys "(" ++ param_str ++ pys "):\n" ++ indentation ++ pys "    pass"
      .ok (joinLines (pyInsertI lines class_end_line new_method))

/-- The method-search loop of `remove_method`
(`method['name'].lower() == method_name.lower()`): on the first iteration
with a `None` method name, Python raises `AttributeError`. -/
def findMethodCI (ms : List FunctionInfo) (mn : Option PyStr) :
    Except PyExn (Option FunctionInfo) :=
  match ms with
  | [] => .ok none
  | m :: rest =>
    match mn with
    | none => .error .attributeError
    | some n => if pyLower m.name = pyLower n then .ok (some m) else findMethodCI rest (some n)

/-- Embeds `CodeGenerator.remove_method`. -/
def removeMethod (lines : List PyStr) (analysis : GenAnalysis) (intent : Intent) :
    Except PyExn PyStr :=
  if intent.action ≠ some (pys "remove_method") then
    .ok (pys "Error: Intent is not remove_method")
  else
    let method_name := intent.method_name
    let target_class := intent.target_class
    let actual := match target_class with
      | none => none
      | some t => if t.isEmpty then none else findClassCI analysis.classes t
    match actual with
    | none => .ok (pys "Error: Class " ++ showOpt target_class ++ pys " not found")
    | some (k, ci) =>
      if k.isEmpty then
        .ok (pys "Error: Class " ++ showOpt target_class ++ pys " not found")
      else do
        let found ← findMethodCI ci.methods method_name
        match found with
        | none =>
          .ok (pys "Error: Method " ++ showOpt method_name ++
            pys " not found in class " ++ k)
        | some m =>
          let start_line := m.location.line_start - 1
          let end_line := m.location.line_end
          .ok (joinLines (pyDelRangeI lines start_line end_line))

/-- Embeds `CodeGenerator.add_class`. -/
def addClass (lines : List PyStr) (analysis : GenAnalysis) (intent : Intent) :
    Except PyExn PyStr :=
  if intent.action ≠ some (pys "add_class") then
    .ok (pys "Error: Intent is not add_class")
  else if !pyTruthyS intent.class_name then .ok (pys "Error: Missing class name")
  else
    let class_name := intent.class_name.getD []
    let base_classes := intent.base_classes.getD []
    let methods := intent.methods.getD []
    let attributes := intent.attributes.getD []
    let insertion_line : Int := analysis.classes.foldl
      (fun acc p => max acc (p.2.location.line_end + 1)) (lines.length : Int)
    let base_str :=
      if !base_classes.isEmpty then
        pys "(" ++ joinWith (pys ", ") base_classes ++ pys ")"
      else []
    let class_def := pys "class " ++ class_name ++ base_str ++ pys ":"
    do
      let init_part : List PyStr :=
        if !attributes.isEmpty then
          let init_body := attributes.map (fun a => pys "self." ++ a ++ pys " = " ++ a)
          let param_str := pys "self" ++
            (if !attributes.isEmpty then pys ", " ++ joinWith (pys ", ") attributes else [])
          [pys "    def __init__(" ++ param_str ++ pys "):\n        " ++
            joinWith (pys "\n        ") init_body]
        else []
      let method_part ← methods.mapM (fun entry =>
        match entry with
        | .pystr _ => (.error .attributeError : Except PyExn PyStr)
        | .pydict d =>
          let name := d.name.getD (pys "unknown_method")
          let params := d.params.getD []
          let body := d.body.getD (pys "pass")
          let param_str := pys "self" ++
            (if !params.isEmpty then pys ", " ++ joinWith (pys ", ") params else [])
          .ok (pys "    def " ++ name ++ pys "(" ++ param_str ++ pys "):\n        " ++ body))
      let class_body0 := init_part ++ method_part
      let class_body := if class_body0.isEmpty then [pys "    pass"] else class_body0
      let new_class := class_def ++ pys "\n" ++ joinWith (pys "\n\n") class_body
      .ok (joinLines (pyInsertI lines insertion_line (pys "\n\n" ++ new_class)))

/-- Embeds `CodeGenerator.remove_class` (exact, case-sensitive lookup of
`class_name`). -/
def removeClass (lines : List PyStr) (analysis : GenAnalysis) (intent : Intent) :
    Except PyExn PyStr :=
  if intent.action ≠ some (pys "remove_class") then
    .ok (pys "Error: Intent is not remove_class")
  else
    let class_name := intent.class_name
    let found := match class_name with
      | none => none
      | some c => dictLookup analysis.classes c
    match found with
    | none => .ok (pys "Error: Class " ++ showOpt class_name ++ pys " not found")
    | some ci =>
      .ok (joinLines (pyDelRangeI lines (ci.location.line_start - 1) ci.location.line_end))

/-- Embeds `CodeGenerator.add_attribute`. -/
def addAttribute (lines : List PyStr) (analysis : GenAnalysis) (intent : Intent) :
    Except PyExn PyStr :=
  if intent.action ≠ some (pys "add_attribute") then
    .ok (pys "Error: Intent is not add_attribute")
  else
    let target_class := intent.target_class
    let attribute_name := intent.attribute_name
    if !pyTruthyS target_class then .ok (pys "Error: Missing target class")
    else if !pyTruthyS attribute_name then .ok (pys "Error: Missing attribute name")
    else
      let t := target_class.getD []
      let attr := attribute_name.getD []
      match findClassCI analysis.classes t with
      | none => .ok (pys "Error: Class " ++ t ++ pys " not found")
      | some (k, ci) =>
        match ci.methods.find? (fun m => m.name = pys "__init__") with
        | none =>
          let indentation := getClassIndentation lines analysis (some k)
          let init_str := indentation ++ pys "def __init__(self, " ++ attr ++
            pys "):\n" ++ indentation ++ pys "    self." ++ attr ++ pys " = " ++ attr
          .ok (joinLines (pyInsertI lines ci.location.line_start init_str))
        | some im => do
          let init_end_line := im.location.line_end - 1
          let init_line ← pyGetI lines init_end_line
          let indentation := getIndentation init_line
          let attribute_line := indentation ++ pys "self." ++ attr ++ pys " = " ++ attr
          let modified := pyInsertI lines init_end_line attribute_line
          if intent.add_parameter.getD true then
            let init_start_line := im.location.line_start - 1
            let init_def_line ← pyGetI lines init_start_line
            let param_start := pyFind init_def_line (pys "(") 0
            let param_end := pyFind init_def_line (pys ")") 0
            if param_start ≥ 0 ∧ param_end ≥ 0 then
              let params := pyStrip (pySlice init_def_line (param_start + 1) param_end)
              let new_params :=
                if (pys ",").isSuffixOf params then params ++ pys " " ++ attr
                else if !params.isEmpty then params ++ pys ", " ++ attr
                else pys "self"
              let new_def := pySliceTo init_def_line (param_start + 1) ++ new_params ++
                pySliceFrom init_def_line param_end
              let modified2 ← pySetI modified init_start_line new_def
              .ok (joinLines modified2)
            else .ok (joinLines modified)
          else .ok (joinLines modified)

/-- Embeds `CodeGenerator.remove_attribute`. -/
def removeAttribute (lines : List PyStr) (analysis : GenAnalysis) (intent : Intent) :
    Except PyExn PyStr :=
  if intent.action ≠ some (pys "remove_attribute") then
    .ok (pys "Error: Intent is not remove_attribute")
  else
    let target_class := intent.target_class
    let attribute_name0 := intent.attribute_name
    let attribute_name :=
      if !pyTruthyS attribute_name0 ∧ intent.attributes.isSome ∧
          !(intent.attributes.getD []).isEmpty then
        some ((intent.attributes.getD []).headD [])
      else attribute_name0
    if !pyTruthyS target_class then .ok (pys "Error: Missing target class")
    else if !pyTruthyS attribute_name then .ok (pys "Error: Missing attribute name")
    else
      let t := target_class.getD []
      let attr := attribute_name.getD []
      match findClassCI analysis.classes t with
      | none => .ok (pys "Error: Class " ++ t ++ pys " not found")
      | some (k, ci) =>
        match ci.attributes.find? (fun a => pyLower a.name = pyLower attr) with
        | none =>
          .ok (pys "Error: Attribute " ++ attr ++ pys " not found in class " ++ k)
        | some a => do
          let modified ← pyDelAtI lines (a.location.line_start - 1)
          match ci.methods.find? (fun m => m.name = pys "__init__") with
          | none => .ok (joinLines modified)
          | some im =>
            let has_param := im.arguments.any (fun arg => pyLower arg = pyLower attr)
            if has_param then do
              let init_line := im.location.line_start - 1
              let init_def ← pyGetI modified init_line
              let param_start := pyFind init_def (pys "(") 0
              let param_end := pyFind init_def (pys ")") 0
              if param_start ≥ 0 ∧ param_end ≥ 0 then
                let param_text := pySlice init_def (param_start + 1) param_end
                let params := (splitOnL (pys ",") param_text).map pyStrip
                let new_params := params.filter (fun p => pyLower (pyStrip p) ≠ pyLower attr)
                let new_def := pySliceTo init_def (param_start + 1) ++
                  joinWith (pys ", ") new_params ++ pySliceFrom init_def param_end
                let modified2 ← pySetI modified init_line new_def
                .ok (joinLines modified2)
              else .ok (joinLines modified)
            else .ok (joinLines modified)

end JavisSpec

namespace JavisSpec

/-! ## Word-boundary replacement scan (`rename_class`'s inner while loop)

The Python loop walks an index `i` over the original line; at each
position it either replaces a whole-word occurrence of the old class name
(advancing by its length) or copies one character.  The boundary tests
read the *original* line (`line[i-1]`, `line[i+len]`).  We model the walk
as a recursion over the remaining suffix, carrying the original previous
character (`none` at position 0); the fuel (initially the line length)
makes the recursion structural — it never runs out for a non-empty old
name since every step consumes at least one character.  (For an empty
old name Python's loop would not terminate at the first non-alphanumeric
position; class names coming from the inventory are never empty.) -/

/-- Whether the word-boundary replacement fires at the current position:
the old name is a prefix of the suffix, the previous original character
(if any) is not alphanumeric, and the original character following the
match (if any) is not alphanumeric. -/
def freeHead (old : PyStr) (prev : Option Char) (l : PyStr) : Bool :=
  old.isPrefixOf l &&
  (match prev with | none => true | some c => !pyIsAlnum c) &&
  (match l.drop old.length with | [] => true | c :: _ => !pyIsAlnum c)

/-- Last character of a list, with a default. -/
def lastCharD (l : PyStr) (d : Char) : Char := l.getLastD d

/-- The replacement walk (see the section comment). -/
def scanAux (old new : PyStr) : Nat → Option Char → PyStr → PyStr
  | 0, _, l => l
  | _ + 1, _, [] => []
  | fuel + 1, prev, c :: rest =>
    if freeHead old prev (c :: rest) then
      new ++ scanAux old new fuel (some (lastCharD old c)) ((c :: rest).drop old.length)
    else c :: scanAux old new fuel (some c) rest

/-- The full per-line replacement of `rename_class`'s reference-update
loop. -/
def wordScan (old new line : PyStr) : PyStr := scanAux old new line.length none line

/-- Version of `List.mapIdx` written out (used for `enumerate(modified_lines)`). -/
def mapWithIdxAux {α β : Type} (f : Nat → α → β) : Nat → List α → List β
  | _, [] => []
  | i, x :: rest => f i x :: mapWithIdxAux f (i + 1) rest

/-- Map with the element index. -/
def mapWithIdx {α β : Type} (f : Nat → α → β) (l : List α) : List β :=
  mapWithIdxAux f 0 l

/-- The rewrite of the class's own definition line in `rename_class`:
find `class`, find the old name after it, splice in the new name.
(When `find` misses, the resulting `-1` indices flow into Python's
clamping slice semantics exactly as in the source.) -/
def renameDefLine (old new cd : PyStr) : PyStr :=
  let class_start := pyFind cd (pys "class") 0
  if class_start ≥ 0 then
    let name_start := pyFind cd old class_start
    pySliceTo cd name_start ++ new ++ pySliceFrom cd (name_start + old.length)
  else cd

/-- Embeds `CodeGenerator.rename_class`. -/
def renameClass (lines : List PyStr) (analysis : GenAnalysis) (intent : Intent) :
    Except PyExn PyStr :=
  if intent.action ≠ some (pys "rename_class") then
    .ok (pys "Error: Intent is not rename_class")
  else
    let old_name := match intent.old_name with
      | some v => some v
      | none => intent.target_class
    let new_name := match intent.new_name with
      | some v => some v
      | none => intent.new_class_name
    if !pyTruthyS old_name || !pyTruthyS new_name then
      .ok (pys "Error: Missing old or new class name")
    else
      let o := old_name.getD []
      let n := new_name.getD []
      let actual0 := findClassCI analysis.classes o
      let actual1 := match actual0 with
        | some x => some x
        | none =>
          match intent.target_class with
          | some alt => if alt ≠ o then findClassCI analysis.classes alt else none
          | none => none
      match actual1 with
      | none => .ok (pys "Error: Class " ++ o ++ pys " not found")
      | some (k, ci) => do
        let class_line := ci.location.line_start - 1
        let class_def ← pyGetI lines class_line
        let modified1 ←
          (let class_start := pyFind class_def (pys "class") 0
           if class_start ≥ 0 then
             let name_start := pyFind class_def k class_start
             let new_def := pySliceTo class_def name_start ++ n ++
               pySliceFrom class_def (name_start + k.length)
             pySetI lines class_line new_def
           else (.ok lines : Except PyExn (List PyStr)))
        let out := mapWithIdx (fun idx line =>
          if (idx : Int) = class_line then line
          else if containsSub k line then wordScan k n line
          else line) modified1
        .ok (joinLines out)

/-- Embeds `CodeGenerator.rename_method`. -/
def renameMethod (lines : List PyStr) (analysis : GenAnalysis) (intent : Intent) :
    Except PyExn PyStr :=
  if intent.action ≠ some (pys "rename_method") then
    .ok (pys "Error: Intent is not rename_method")
  else
    let old_name := intent.old_name
    let new_name := intent.new_name
    let fallthrough := pys "Error: Could not rename method or function"
    match intent.target_class with
    | some t =>
      if !t.isEmpty then
        match dictLookup analysis.classes t with
        | none => .ok (pys "Error: Class " ++ t ++ pys " not found")
        | some ci =>
          match ci.methods.find? (fun m =>
              match old_name with | none => false | some o => m.name = o) with
          | none =>
            .ok (pys "Error: Method " ++ showOpt old_name ++
              pys " not found in class " ++ t)
          | some m => do
            let method_line := m.location.line_start - 1
            let method_def ← pyGetI lines method_line
            let def_start := pyFind method_def (pys "def") 0
            if def_start ≥ 0 then
              match old_name with
              | none => .ok fallthrough
              | some o =>
                match new_name with
                | none => .error .typeError
                | some nn =>
                  let name_start := pyFind method_def o def_start
                  let new_def := pySliceTo method_def name_start ++ nn ++
                    pySliceFrom method_def (name_start + o.length)
                  let modified ← pySetI lines method_line new_def
                  .ok (joinLines modified)
            else .ok fallthrough
      else
        renameMethodFunctionBranch lines analysis old_name new_name
    | none => renameMethodFunctionBranch lines analysis old_name new_name
where
  /-- The standalone-function branch of `rename_method`. -/
  renameMethodFunctionBranch (lines : List PyStr) (analysis : GenAnalysis)
      (old_name new_name : Option PyStr) : Except PyExn PyStr :=
    match analysis.functions.find? (fun f =>
        match old_name with | none => false | some o => f.name = o) with
    | none => .ok (pys "Error: Function " ++ showOpt old_name ++ pys " not found")
    | some f => do
      let function_line := f.location.line_start - 1
      let function_def ← pyGetI lines function_line
      let def_start := pyFind function_def (pys "def") 0
      if def_start ≥ 0 then
        match old_name with
        | none => .ok (pys "Error: Could not rename method or function")
        | some o =>
          match new_name with
          | none => .error .typeError
          | some nn =>
            let name_start := pyFind function_def o def_start
            let new_def := pySliceTo function_def name_start ++ nn ++
              pySliceFrom function_def (name_start + o.length)
            let modified ← pySetI lines function_line new_def
            .ok (joinLines modified)
      else .ok (pys "Error: Could not rename method or function")

/-- Embeds `CodeGenerator.add_function`. -/
def addFunction (lines : List PyStr) (analysis : GenAnalysis) (intent : Intent) :
    Except PyExn PyStr :=
  if intent.action ≠ some (pys "add_function") then
    .ok (pys "Error: Intent is not add_function")
  else
    let function_name := intent.function_name
    let parameters := intent.parameters.getD []
    let function_body := intent.function_body.getD (pys "pass")
    let body_fmt :=
      if function_body = pys "pass" then pys "    pass"
      else joinWith (pys "\n") ((splitLines function_body).map (fun l => pys "    " ++ l))
    let param_str := joinWith (pys ", ") parameters
    let new_function := pys "def " ++ showOpt function_name ++ pys "(" ++ param_str ++
      pys "):\n" ++ body_fmt
    let ins1 : Int := analysis.classes.foldl
      (fun acc p => max acc (p.2.location.line_end + 1)) (lines.length : Int)
    let insertion_line : Int := analysis.functions.foldl
      (fun acc f => max acc (f.location.line_end + 1)) ins1
    .ok (joinLines (pyInsertI lines insertion_line (pys "\n\n" ++ new_function)))

/-- Embeds `CodeGenerator.remove_function`. -/
def removeFunction (lines : List PyStr) (analysis : GenAnalysis) (intent : Intent) :
    Except PyExn PyStr :=
  if intent.action ≠ some (pys "remove_function") then
    .ok (pys "Error: Intent is not remove_function")
  else
    let function_name := intent.function_name
    match analysis.functions.find? (fun f =>
        match function_name with | none => false | some n => f.name = n) with
    | none => .ok (pys "Error: Function " ++ showOpt function_name ++ pys " not found")
    | some f =>
      .ok (joinLines (pyDelRangeI lines (f.location.line_start - 1) f.location.line_end))

/-- The target-resolution step shared by `add_loop` / `add_conditional`:
`.error` carries an early-returned error string, `.ok` the found (or not
found) method/function. -/
def resolveLoopTarget (analysis : GenAnalysis) (target_type target_name
    target_class : Option PyStr) : Except PyStr (Option FunctionInfo) :=
  if target_type = some (pys "method") then
    if !pyTruthyS target_class ∨ dictLookup analysis.classes (target_class.getD []) = none then
      .error (pys "Error: Class " ++ showOpt target_class ++ pys " not found")
    else
      match dictLookup analysis.classes (target_class.getD []) with
      | some ci => .ok (ci.methods.find? (fun m =>
          match target_name with | none => false | some tn => m.name = tn))
      | none => .ok none
  else
    .ok (analysis.functions.find? (fun f =>
      match target_name with | none => false | some tn => f.name = tn))

/-- Embeds `CodeGenerator.add_loop`. -/
def addLoop (lines : List PyStr) (analysis : GenAnalysis) (intent : Intent) :
    Except PyExn PyStr :=
  if intent.action ≠ some (pys "add_loop") then
    .ok (pys "Error: Intent is not add_loop")
  else
    let loop_type := intent.loop_type.getD (pys "for")
    let target_type := intent.target_type
    let target_name := intent.target_name
    let target_class := intent.target_class
    let iterator := intent.iterator.getD (pys "i")
    let iterable := intent.iterable.getD (pys "range(10)")
    let condition := intent.condition.getD (pys "True")
    let loop_body := intent.loop_body.getD (pys "pass")
    match resolveLoopTarget analysis target_type target_name target_class with
    | .error msg => .ok msg
    | .ok none => do
      let cap ← pyCapitalizeOpt target_type
      .ok (pys "Error: " ++ cap ++ pys " " ++ showOpt target_name ++ pys " not found")
    | .ok (some tgt) => do
      let insertion_line := tgt.location.line_end - 1
      let content ← pyGetI lines insertion_line
      let indentation := getIndentation content
      let loop_code :=
        if loop_type = pys "for" then
          indentation ++ pys "for " ++ iterator ++ pys " in " ++ iterable ++ pys ":"
        else indentation ++ pys "while " ++ condition ++ pys ":"
      let body_fmt :=
        if loop_body = pys "pass" then indentation ++ pys "    pass"
        else joinWith (pys "\n")
          ((splitLines loop_body).map (fun l => indentation ++ pys "    " ++ l))
      let full_loop := loop_code ++ pys "\n" ++ body_fmt
      .ok (joinLines (pyInsertI lines insertion_line full_loop))

/-- Embeds `CodeGenerator.add_conditional`. -/
def addConditional (lines : List PyStr) (analysis : GenAnalysis) (intent : Intent) :
    Except PyExn PyStr :=
  if intent.action ≠ some (pys "add_conditional") then
    .ok (pys "Error: Intent is not add_conditional")
  else
    let conditional_type := intent.conditional_type.getD (pys "if")
    let target_type := intent.target_type
    let target_name := intent.target_name
    let target_class := intent.target_class
    let conditions := intent.conditions.getD [pys "True"]
    let bodies := intent.bodies.getD [pys "pass"]
    let match_subject := intent.match_subject.getD []
    let cases := intent.cases.getD []
    match resolveLoopTarget analysis target_type target_name target_class with
    | .error msg => .ok msg
    | .ok none => do
      let cap ← pyCapitalizeOpt target_type
      .ok (pys "Error: " ++ cap ++ pys " " ++ showOpt target_name ++ pys " not found")
    | .ok (some tgt) => do
      let insertion_line := tgt.location.line_end - 1
      let content ← pyGetI lines insertion_line
      let indentation := getIndentation content
      let conditional_code : List PyStr :=
        if conditional_type = pys "match" then
          (indentation ++ pys "match " ++ match_subject ++ pys ":") ::
          cases.flatMap (fun case =>
            let pattern := case.pattern.getD (pys "_")
            let body := case.body.getD (pys "pass")
            (indentation ++ pys "    case " ++ pattern ++ pys ":") ::
            (if body = pys "pass" then [indentation ++ pys "        pass"]
             else (splitLines body).map (fun l => indentation ++ pys "        " ++ l)))
        else
          (mapWithIdx (fun i pr =>
            let head :=
              if i = 0 then indentation ++ pys "if " ++ pr.1 ++ pys ":"
              else if i = conditions.length - 1 ∧
                  (conditional_type = pys "if-else" ∨ conditional_type = pys "if-elif-else") then
                indentation ++ pys "else:"
              else indentation ++ pys "elif " ++ pr.1 ++ pys ":"
            head :: (if pr.2 = pys "pass" then [indentation ++ pys "    pass"]
                     else (splitLines pr.2).map (fun l => indentation ++ pys "    " ++ l)))
            (conditions.zip bodies)).flatten
      let full_conditional := joinWith (pys "\n") conditional_code
      .ok (joinLines (pyInsertI lines insertion_line full_conditional))

end JavisSpec

namespace JavisSpec

/-- Embeds `CodeGenerator.implement_interface`. -/
def implementInterface (lines : List PyStr) (analysis : GenAnalysis)
    (intent : Intent) : Except PyExn PyStr :=
  if intent.action ≠ some (pys "implement_interface") then
    .ok (pys "Error: Intent is not implement_interface")
  else
    let target_class := intent.target_class
    let interface_class := intent.interface_class
    let methods := intent.methods.getD []
    let found := match target_class with
      | none => none
      | some t => dictLookup analysis.classes t
    match found with
    | none => .ok (pys "Error: Class " ++ showOpt target_class ++ pys " not found")
    | some ci => do
      let indentation := getClassIndentation lines analysis target_class
      let start : List PyStr × Int := (lines, ci.location.line_end)
      let acc ← methods.foldlM (fun (acc : List PyStr × Int) entry =>
        match entry with
        | .pystr _ => (.error .attributeError : Except PyExn (List PyStr × Int))
        | .pydict d =>
          let method_name := d.name
          let parameters := d.parameters.getD []
          let body := d.body.getD (pys "pass")
          let param_str := pys "self" ++
            (if !parameters.isEmpty then pys ", " ++ joinWith (pys ", ") parameters else [])
          let body_fmt :=
            if body = pys "pass" then indentation ++ pys "    pass"
            else joinWith (pys "\n")
              ((splitLines body).map (fun l => indentation ++ pys "    " ++ l))
          let method_code := indentation ++ pys "def " ++ showOpt method_name ++
            pys "(" ++ param_str ++ pys "):\n" ++ body_fmt
          .ok (pyInsertI acc.1 acc.2 method_code, acc.2 + 1)) start
      let modified := acc.1
      let class_line := ci.location.line_start - 1
      let class_def ← pyGetI modified class_line
      let inBases := match interface_class with
        | none => false
        | some icn => ci.bases.contains icn
      if !inBases then
        let op := pyFind class_def (pys "(") 0
        let cp := pyFind class_def (pys ")") 0
        if op ≥ 0 ∧ cp ≥ 0 then do
          let bases := pyStrip (pySlice class_def (op + 1) cp)
          let new_bases ←
            (if !bases.isEmpty then
              (.ok (bases ++ pys ", " ++ showOpt interface_class) : Except PyExn PyStr)
            else
              match interface_class with
              | none => .error .typeError
              | some icn => .ok icn)
          let new_def := pySliceTo class_def (op + 1) ++ new_bases ++
            pySliceFrom class_def cp
          let modified2 ← pySetI modified class_line new_def
          .ok (joinLines modified2)
        else
          let ne := pyFind class_def (pys ":") 0
          if ne ≥ 0 then do
            let new_def := pySliceTo class_def ne ++ pys "(" ++ showOpt interface_class ++
              pys ")" ++ pySliceFrom class_def ne
            let modified2 ← pySetI modified class_line new_def
            .ok (joinLines modified2)
          else .ok (joinLines modified)
      else .ok (joinLines modified)

/-- Embeds `CodeGenerator.apply_polymorphism`. -/
def applyPolymorphism (lines : List PyStr) (analysis : GenAnalysis)
    (intent : Intent) : Except PyExn PyStr :=
  if intent.action ≠ some (pys "apply_polymorphism") then
    .ok (pys "Error: Intent is not apply_polymorphism")
  else
    let target_class := intent.target_class
    let parent_class := intent.parent_class
    let methods_to_override := intent.methods.getD []
    let foundT := match target_class with
      | none => none
      | some t => dictLookup analysis.classes t
    match foundT with
    | none => .ok (pys "Error: Class " ++ showOpt target_class ++ pys " not found")
    | some ci =>
      let foundP := match parent_class with
        | none => none
        | some pc => dictLookup analysis.classes pc
      match parent_class, foundP with
      | _, none =>
        .ok (pys "Error: Parent class " ++ showOpt parent_class ++ pys " not found")
      | none, some _ =>
        .ok (pys "Error: Parent class " ++ showOpt parent_class ++ pys " not found")
      | some p, some pci => do
        let mod0 ←
          (if !(ci.bases.contains p) then do
            let class_line := ci.location.line_start - 1
            let class_def ← pyGetI lines class_line
            let op := pyFind class_def (pys "(") 0
            let cp := pyFind class_def (pys ")") 0
            if op ≥ 0 ∧ cp ≥ 0 then do
              let bases := pyStrip (pySlice class_def (op + 1) cp)
              let new_bases := if !bases.isEmpty then bases ++ pys ", " ++ p else p
              let new_def := pySliceTo class_def (op + 1) ++ new_bases ++
                pySliceFrom class_def cp
              let m ← pySetI lines class_line new_def
              (.ok (Sum.inr m) : Except PyExn (Sum PyStr (List PyStr)))
            else
              let ne := pyFind class_def (pys ":") 0
              if ne ≥ 0 then do
                let new_def := pySliceTo class_def ne ++ pys "(" ++ p ++ pys ")" ++
                  pySliceFrom class_def ne
                let m ← pySetI lines class_line new_def
                (.ok (Sum.inr m) : Except PyExn (Sum PyStr (List PyStr)))
              else .ok (Sum.inl (pys "Error: Invalid class definition format"))
          else (.ok (Sum.inr lines) : Except PyExn (Sum PyStr (List PyStr))))
        match mod0 with
        | .inl msg => .ok msg
        | .inr modified => do
          let parent_methods := pci.methods.foldl
            (fun acc m => dictInsert acc m.name m) []
          let indentation := getClassIndentation lines analysis target_class
          let start : List PyStr × Int := (modified, ci.location.line_end)
          let acc ← methods_to_override.foldlM
            (fun (acc : List PyStr × Int) entry =>
              match entry with
              | .pydict _ => (.error .typeError : Except PyExn (List PyStr × Int))
              | .pystr mname =>
                match dictLookup parent_methods mname with
                | none => .ok acc
                | some pm =>
                  if ci.methods.any (fun m => m.name = mname) then .ok acc
                  else
                    let params := pm.arguments
                    let param_str := joinWith (pys ", ") params
                    let mc := indentation ++ pys "def " ++ mname ++ pys "(" ++
                      param_str ++ pys "):\n" ++
                      indentation ++ pys "    # Override of " ++ p ++ pys "." ++
                      mname ++ pys "\n" ++
                      indentation ++ pys "    # Call parent method if needed\n" ++
                      indentation ++ pys "    # super()." ++ mname ++ pys "(" ++
                      joinWith (pys ", ") (params.filter (fun q => q ≠ pys "self")) ++
                      pys ")\n" ++
                      indentation ++ pys "    pass"
                    .ok (pyInsertI acc.1 acc.2 mc, acc.2 + 1)) start
          .ok (joinLines acc.1)

/-- The `+1` line shift on one full location (classes, methods). -/
def shiftLoc1 (l : Loc) : Loc :=
  { l with line_start := l.line_start + 1, line_end := l.line_end + 1 }

/-- The `+1` line shift on an attribute location: the code bumps
`line_start` only (`attr['location']['line_start'] += 1`); the
attribute's `line_end` is left as it was. -/
def shiftLocStart (l : Loc) : Loc := { l with line_start := l.line_start + 1 }

/-- The in-place inventory adjustment `add_abstract_method` performs
after inserting the import line: every class's and method's
`line_start`/`line_end` plus one, every attribute's `line_start` plus
one; nothing else (names, bases, arguments, columns, the top-level
`functions` list) is touched. -/
def shiftClassInfo (ci : ClassInfo) : ClassInfo :=
  { ci with
      location := shiftLoc1 ci.location
      methods := ci.methods.map (fun m => { m with location := shiftLoc1 m.location })
      attributes := ci.attributes.map (fun a => { a with location := shiftLocStart a.location }) }

/-- The full inventory shift pass of `add_abstract_method`. -/
def shiftAnalysis (an : GenAnalysis) : GenAnalysis :=
  { an with classes := an.classes.map (fun p => (p.1, shiftClassInfo p.2)) }

/-- Embeds `CodeGenerator.add_abstract_method`.  Python mutates
`self.code_analysis` in place when it prepends the `abc` import; the
embedding returns the final analysis state alongside the result string. -/
def addAbstractMethod (lines : List PyStr) (analysis : GenAnalysis)
    (intent : Intent) : Except PyExn PyStr × GenAnalysis :=
  if intent.action ≠ some (pys "add_abstract_method") then
    (.ok (pys "Error: Intent is not add_abstract_method"), analysis)
  else
    let target_class := intent.target_class
    let method_name := intent.method_name
    let parameters := intent.parameters.getD []
    let found := match target_class with
      | none => none
      | some t => dictLookup analysis.classes t
    match found with
    | none =>
      (.ok (pys "Error: Class " ++ showOpt target_class ++ pys " not found"), analysis)
    | some _ =>
      let abc_found := lines.any (fun l =>
        containsSub (pys "import abc") l || containsSub (pys "from abc import") l)
      let modified0 :=
        if !abc_found then insertAtL 0 (pys "from abc import ABC, abstractmethod") lines
        else lines
      let analysis1 := if !abc_found then shiftAnalysis analysis else analysis
      let res : Except PyExn PyStr :=
        match (match target_class with
               | none => none
               | some t => dictLookup analysis1.classes t) with
        | none => .ok (pys "Error: Class " ++ showOpt target_class ++ pys " not found")
        | some ci => do
          let class_line := ci.location.line_start - 1
          let class_def ← pyGetI modified0 class_line
          let step ←
            (if !(containsSub (pys "ABC") class_def) then
              let op := pyFind class_def (pys "(") 0
              let cp := pyFind class_def (pys ")") 0
              if op ≥ 0 ∧ cp ≥ 0 then do
                let bases := pyStrip (pySlice class_def (op + 1) cp)
                let new_bases := if !bases.isEmpty then bases ++ pys ", ABC" else pys "ABC"
                let new_def := pySliceTo class_def (op + 1) ++ new_bases ++
                  pySliceFrom class_def cp
                let m ← pySetI modified0 class_line new_def
                (.ok (Sum.inr m) : Except PyExn (Sum PyStr (List PyStr)))
              else
                let ne := pyFind class_def (pys ":") 0
                if ne ≥ 0 then do
                  let new_def := pySliceTo class_def ne ++ pys "(ABC)" ++
                    pySliceFrom class_def ne
                  let m ← pySetI modified0 class_line new_def
                  (.ok (Sum.inr m) : Except PyExn (Sum PyStr (List PyStr)))
                else .ok (Sum.inl (pys "Error: Invalid class definition format"))
            else (.ok (Sum.inr modified0) : Except PyExn (Sum PyStr (List PyStr))))
          match step with
          | .inl msg => .ok msg
          | .inr modified1 =>
            let indentation := getClassIndentation lines analysis1 target_class
            let param_str := pys "self" ++
              (if !parameters.isEmpty then pys ", " ++ joinWith (pys ", ") parameters else [])
            let method_code := indentation ++ pys "@abstractmethod\n" ++ indentation ++
              pys "def " ++ showOpt method_name ++ pys "(" ++ param_str ++ pys "):\n" ++
              indentation ++ pys "    pass"
            .ok (joinLines (pyInsertI modified1 ci.location.line_end method_code))
      (res, analysis1)

/-- Embeds `CodeGenerator.generate_modified_code`: the action dispatcher. -/
def generateModifiedCode (lines : List PyStr) (analysis : GenAnalysis)
    (intent : Intent) : Except PyExn PyStr :=
  let action := intent.action
  if action = some (pys "add_method") then addMethod lines analysis intent
  else if action = some (pys "remove_method") then removeMethod lines analysis intent
  else if action = some (pys "add_class") then addClass lines analysis intent
  else if action = some (pys "remove_class") then removeClass lines analysis intent
  else if action = some (pys "add_attribute") then addAttribute lines analysis intent
  else if action = some (pys "remove_attribute") then removeAttribute lines analysis intent
  else if action = some (pys "rename_class") then renameClass lines analysis intent
  else if action = some (pys "rename_method") then renameMethod lines analysis intent
  else if action = some (pys "add_function") then addFunction lines analysis intent
  else if action = some (pys "remove_function") then removeFunction lines analysis intent
  else if action = some (pys "add_loop") then addLoop lines analysis intent
  else if action = some (pys "add_conditional") then addConditional lines analysis intent
  else if action = some (pys "implement_interface") then implementInterface lines analysis intent
  else if action = some (pys "apply_polymorphism") then applyPolymorphism lines analysis intent
  else if action = some (pys "add_abstract_method") then
    (addAbstractMethod lines analysis intent).1
  else .ok (pys "Error: Unsupported action " ++ showOpt action)

/-- One class-name field normalization step of `process_command`:
replace the value by the canonical-cased inventory key when some key
matches case-insensitively (first match wins); leave it otherwise.
Runs only when the key is present in the intent. -/
def normalizeField (classes : List (PyStr × ClassInfo)) (v : Option PyStr) :
    Option PyStr :=
  match v with
  | none => none
  | some s =>
    match findClassCI classes s with
    | some (k, _) => some k
    | none => some s

/-- The intent normalization of `process_command`: `target_class` plus
the fields `old_name`, `new_name`, `parent_class`, `interface_class`,
`child_class`.  (`class_name` is not in the list.) -/
def normalizeIntent (intent : Intent) (analysis : GenAnalysis) : Intent :=
  { intent with
      target_class := normalizeField analysis.classes intent.target_class
      old_name := normalizeField analysis.classes intent.old_name
      new_name := normalizeField analysis.classes intent.new_name
      parent_class := normalizeField analysis.classes intent.parent_class
      interface_class := normalizeField analysis.classes intent.interface_class
      child_class := normalizeField analysis.classes intent.child_class }

/-- Embeds `process_command`: normalize the intent against the inventory, then
dispatch. -/
def processCommand (originalCode : PyStr) (intent : Intent)
    (analysis : GenAnalysis) : Except PyExn PyStr :=
  generateModifiedCode (splitLines originalCode) analysis
    (normalizeIntent intent analysis)

end JavisSpec

namespace JavisSpec

/-! ## Intent Parser action dataflow (`model/command_parser.py`)

`parse_command` lower-cases the instruction and computes the intent's
`action` field through a cascade: base action, target type, composition,
the function-in-class repair, then the loop / conditional / polymorphism
blocks, each of which may overwrite the action.  The other intent fields
are produced by regex extractors that never feed back into the action;
`actionOf` embeds exactly the action dataflow. -/

/-- Keyword hit: some keyword of the list is a whole word of the
lower-cased command (`keyword in command.split()`); multi-word keywords
such as `"get rid of"` can therefore never hit. -/
def keywordHit (kws : List PyStr) (ws : List PyStr) : Bool :=
  kws.any (fun kw => ws.contains kw)

/-- Embeds `CommandParser._determine_base_action`. -/
def determineBaseAction (cmd : PyStr) : Option PyStr :=
  let ws := splitWs cmd
  if keywordHit [pys "add", pys "create", pys "implement", pys "define",
      pys "insert", pys "make"] ws then some (pys "add")
  else if keywordHit [pys "remove", pys "delete", pys "eliminate",
      pys "get rid of"] ws then some (pys "remove")
  else if keywordHit [pys "modify", pys "change", pys "update", pys "alter"] ws then
    (if containsSub (pys "to") cmd &&
        (containsSub (pys "rename") cmd || containsSub (pys "name") cmd) then
      some (pys "rename")
    else some (pys "modify"))
  else if keywordHit [pys "rename", pys "change name", pys "call", pys "name"] ws then
    some (pys "rename")
  else if keywordHit [pys "get", pys "retrieve", pys "find", pys "show",
      pys "display"] ws then some (pys "get")
  else none

/-- Embeds `CommandParser._determine_target_type`. -/
def determineTargetType (cmd : PyStr) : Option PyStr :=
  if (containsSub (pys "for loop") cmd || containsSub (pys "while loop") cmd ||
      containsSub (pys " loop") cmd) && containsSub (pys "to the") cmd then
    some (pys "loop")
  else if (containsSub (pys "if/else") cmd || containsSub (pys "if-else") cmd ||
      containsSub (pys "switch/case") cmd || containsSub (pys "conditional") cmd ||
      containsSub (pys "statement") cmd) && containsSub (pys "to the") cmd then
    some (pys "conditional")
  else if containsSub (pys "polymorphism") cmd || containsSub (pys "override") cmd ||
      containsSub (pys "overload") cmd then
    some (pys "polymorphism")
  else if containsSub (pys "inherit") cmd || containsSub (pys "extends") cmd ||
      containsSub (pys "subclass") cmd then
    some (pys "inheritance")
  else if containsSub (pys "standalone function") cmd ||
      containsSub (pys "function outside") cmd ||
      containsSub (pys "global function") cmd then
    some (pys "function")
  else if containsSub (pys "method") cmd &&
      !(containsSub (pys "to the") cmd || containsSub (pys "loop to") cmd ||
        containsSub (pys "conditional to") cmd || containsSub (pys "statement to") cmd) then
    some (pys "method")
  else if containsSub (pys "function") cmd &&
      !(containsSub (pys "to the") cmd || containsSub (pys "loop to") cmd ||
        containsSub (pys "conditional to") cmd || containsSub (pys "statement to") cmd ||
        containsSub (pys "class") cmd) then
    some (pys "function")
  else if containsSub (pys "attribute") cmd || containsSub (pys "property") cmd ||
      containsSub (pys "field") cmd then
    some (pys "attribute")
  else if containsSub (pys "class") cmd then some (pys "class")
  else none

/-- The value of `intent["action"]` returned by
`CommandParser.parse_command` on the given instruction. -/
def actionOf (commandText : PyStr) : PyStr :=
  let cmd := pyLower commandText
  let base := determineBaseAction cmd
  let tgt := determineTargetType cmd
  let a0 :=
    match base, tgt with
    | some b, some t => b ++ pys "_" ++ t
    | some b, none => b
    | none, _ => pys "unknown"
  let a1 :=
    if containsSub (pys "function") cmd && containsSub (pys "in") cmd &&
        containsSub (pys "class") cmd && a0 = pys "add_function" then
      pys "add_method"
    else a0
  let a2 := if containsSub (pys "loop") cmd || a1 = pys "add_loop" then pys "add_loop" else a1
  let a3 :=
    if containsSub (pys "conditional") cmd || containsSub (pys "if/else") cmd ||
        containsSub (pys "switch") cmd || containsSub (pys "statement") cmd ||
        a2 = pys "add_conditional" then
      pys "add_conditional"
    else a2
  if containsSub (pys "polymorphism") a3 || containsSub (pys "override") cmd ||
      containsSub (pys "polymorphism") cmd then
    pys "add_polymorphism"
  else a3

/-! ## Tree Mutator (`javis.py`, libCST transformers)

A concrete-syntax-tree fragment: class definitions (with their direct
body), function definitions (parameters and an opaque body — the
transformers never look inside), and opaque other statements.  The
visitor recurses into class bodies, so nested class definitions are
modelled; class definitions nested inside *function* bodies are outside
the model (the transformers under study match by class name and would
treat them identically). -/

mutual
/-- A CST statement. -/
inductive CstStmt where
  | classDef (name : PyStr) (body : CstBody)
  | functionDef (name : PyStr) (params : List PyStr) (body : PyStr)
  | otherStmt (code : PyStr)
/-- A sequence of CST statements (a module or a class body). -/
inductive CstBody where
  | nil
  | cons (s : CstStmt) (rest : CstBody)
end

/-- The membership scan of `AddMethodToClassTransformer.leave_ClassDef`:
`any(isinstance(node, FunctionDef) and node.name.value == method_name
for node in body)`. -/
def cstBodyHasFn (m : PyStr) : CstBody → Bool
  | .nil => false
  | .cons s rest =>
    (match s with
     | .functionDef n _ _ => n = m
     | _ => false) || cstBodyHasFn m rest

/-- Appending one statement to a body
(`list(updated_node.body.body) + [new_method]`). -/
def cstBodyAppend (b : CstBody) (s : CstStmt) : CstBody :=
  match b with
  | .nil => .cons s .nil
  | .cons x rest => .cons x (cstBodyAppend rest s)

/-- The new method node the transformer builds:
`FunctionDef(name=m, params=Parameters([Param(Name("self"))]),
body=IndentedBlock([SimpleStatementLine([Pass()])]))`. -/
def cstNewMethod (m : PyStr) : CstStmt := .functionDef m [pys "self"] (pys "pass")

mutual
/-- Embeds `AddMethodToClassTransformer` on one statement: `leave_ClassDef`
fires post-order on every class definition; for the matching class, if
the *original* body already holds a method of that name the (recursively
transformed) node is returned unchanged, otherwise the new method is
appended to the transformed body. -/
def addMethodTransformStmt (cName mName : PyStr) : CstStmt → CstStmt
  | .classDef n body =>
    let newBody := addMethodTransformBody cName mName body
    if n = cName then
      if cstBodyHasFn mName body then .classDef n newBody
      else .classDef n (cstBodyAppend newBody (cstNewMethod mName))
    else .classDef n newBody
  | .functionDef n p b => .functionDef n p b
  | .otherStmt c => .otherStmt c
/-- Embeds `AddMethodToClassTransformer` over a statement sequence. -/
def addMethodTransformBody (cName mName : PyStr) : CstBody → CstBody
  | .nil => .nil
  | .cons s rest =>
    .cons (addMethodTransformStmt cName mName s) (addMethodTransformBody cName mName rest)
end

/-- The `intent == "add"` branch of `modify_code_with_libcst`, at tree
level (libCST's parse/codegen round-trip is the identity on the tree):
the transformer runs only when `element_type == "method"` and both
`name` and `class_name` are truthy; otherwise the module is returned
unchanged. -/
def modifyCodeAddMethod (m : CstBody) (element_type name class_name : Option PyStr) :
    CstBody :=
  if element_type = some (pys "method") && pyTruthyS name && pyTruthyS class_name then
    addMethodTransformBody (class_name.getD []) (name.getD []) m
  else m

end JavisSpec

namespace JavisSpec

/-! ## Concrete fixtures

Source texts together with hand-derived CPython ASTs (what `ast.parse`
returns on them; line/column numbers can be re-checked against the text
by counting). -/

/-- Three-line class with a single method `Eat`. -/
def animalSrc : PyStr := pys "class Animal:\n    def Eat(self):\n        pass"

/-- Location of `class Animal` (lines 1-3). -/
def animalLoc : PyLoc := { lineno := 1, end_lineno := 3, col_offset := 0, end_col_offset := 12 }

/-- Location of `def Eat` (lines 2-3). -/
def eatLoc : PyLoc := { lineno := 2, end_lineno := 3, col_offset := 4, end_col_offset := 12 }

/-- Hand-derived AST of `animalSrc`. -/
def animalAst : List PyStmt :=
  [.classDef (pys "Animal") []
    [.functionDef (pys "Eat") [pys "self"] [.other] eatLoc] animalLoc]

/-- Analyzer output on `animalSrc`, fed to the generator. -/
def animalAnalysis : GenAnalysis := toGen (extractStructure (.ok animalAst))

/-- Three-line class whose constructor stores one attribute `x`. -/
def initSrc : PyStr := pys "class A:\n    def __init__(self, x):\n        self.x = x"

/-- Hand-derived AST of `initSrc`. -/
def initAst : List PyStmt :=
  [.classDef (pys "A") []
    [.functionDef (pys "__init__") [pys "self", pys "x"]
      [.assign [.attrOfName (pys "self") (pys "x")]
        { lineno := 3, end_lineno := 3, col_offset := 8, end_col_offset := 18 }]
      { lineno := 2, end_lineno := 3, col_offset := 4, end_col_offset := 18 }]
    { lineno := 1, end_lineno := 3, col_offset := 0, end_col_offset := 18 }]

/-- Analyzer output on `initSrc`, fed to the generator. -/
def initAnalysis : GenAnalysis := toGen (extractStructure (.ok initAst))

/-! ## C4 -/

/-- C4.  For every source text that fails to parse, the analyzer
returns the error dictionary with `status`, `message` (the f-string over
the stored `SyntaxError`), `line` and `offset`, without `classes` or
`functions` keys; the embedding is a total function, so no exception
escapes. -/
theorem extract_structure_error_shape (e : SyntaxErr) :
    extractStructure (.error e) =
      .error (pys "Syntax error: " ++ e.str) e.lineno e.offset ∧
    (extractStructure (.error e)).statusStr = pys "error" ∧
    (extractStructure (.error e)).classes? = none ∧
    (extractStructure (.error e)).functions? = none :=
  ⟨rfl, rfl, rfl, rfl⟩

/-! ## C1 -/

/-- Intent of a `remove_method` command whose `method_name` field is
absent (e.g. the parser failed to extract it). -/
def removeMethodNoNameIntent : Intent :=
  { action := some (pys "remove_method"), target_class := some (pys "Animal") }

/-- Intent of an `add_loop` command with no `target_type` / `target_name`
fields. -/
def addLoopNoFieldsIntent : Intent := { action := some (pys "add_loop") }

/-- C1 (refuting theorem).  With a required field absent, the generator
raises instead of returning an error string: `remove_method` with no
`method_name` reaches `method_name.lower()` (an `AttributeError` on
`None`) once the class is resolved and has a method, and `add_loop` with
no `target_type` reaches `target_type.capitalize()` (likewise) when the
target is not found; the dispatcher propagates the exception. -/
theorem remove_method_add_loop_raise :
    removeMethod (splitLines animalSrc) animalAnalysis removeMethodNoNameIntent =
      .error .attributeError ∧
    addLoop (splitLines animalSrc) animalAnalysis addLoopNoFieldsIntent =
      .error .attributeError ∧
    generateModifiedCode (splitLines animalSrc) animalAnalysis removeMethodNoNameIntent =
      .error .attributeError ∧
    generateModifiedCode (splitLines animalSrc) animalAnalysis addLoopNoFieldsIntent =
      .error .attributeError := by
  refine ⟨rfl, rfl, rfl, rfl⟩

end JavisSpec

namespace JavisSpec

/-! ## C2 -/

/-- Soundness of the case-insensitive lookup loop: a hit returns an
inventory entry whose key matches the query up to case. -/
theorem findClassCI_sound (classes : List (PyStr × ClassInfo)) (v k : PyStr)
    (ci : ClassInfo) (h : findClassCI classes v = some (k, ci)) :
    pyLower k = pyLower v ∧ (k, ci) ∈ classes := by
  induction classes with
  | nil => simp [findClassCI] at h
  | cons p rest ih =>
    by_cases hp : pyLower p.1 = pyLower v
    · simp [findClassCI, hp] at h
      subst h
      exact ⟨hp, List.mem_cons_self _ _⟩
    · simp [findClassCI, hp] at h
      exact ⟨(ih h).1, List.mem_cons_of_mem _ (ih h).2⟩

/-- C2 (amended).  The normalization step of `process_command` resolves
each of the six listed class-name fields to the canonical-cased
inventory key whenever the case-insensitive lookup (first match wins)
hits, and leaves the `class_name` field untouched. -/
theorem process_command_normalizes_class_fields
    (intent : Intent) (analysis : GenAnalysis) (v k : PyStr) (ci : ClassInfo)
    (hfind : findClassCI analysis.classes v = some (k, ci)) :
    pyLower k = pyLower v ∧ (k, ci) ∈ analysis.classes ∧
    (intent.target_class = some v →
      (normalizeIntent intent analysis).target_class = some k) ∧
    (intent.old_name = some v →
      (normalizeIntent intent analysis).old_name = some k) ∧
    (intent.new_name = some v →
      (normalizeIntent intent analysis).new_name = some k) ∧
    (intent.parent_class = some v →
      (normalizeIntent intent analysis).parent_class = some k) ∧
    (intent.interface_class = some v →
      (normalizeIntent intent analysis).interface_class = some k) ∧
    (intent.child_class = some v →
      (normalizeIntent intent analysis).child_class = some k) ∧
    (normalizeIntent intent analysis).class_name = intent.class_name := by
  obtain ⟨h1, h2⟩ := findClassCI_sound analysis.classes v k ci hfind
  refine ⟨h1, h2, ?_, ?_, ?_, ?_, ?_, ?_, rfl⟩ <;>
    intro h <;> simp [normalizeIntent, normalizeField, h, hfind]

/-- Value of the class info the analyzer computes for `animalSrc`. -/
def animalInfo : ClassInfo :=
  classInfoOf (pys "Animal") []
    [.functionDef (pys "Eat") [pys "self"] [.other] eatLoc] animalLoc

/-- C2 (witness): a casing variant in `target_class` resolves to the
canonical key of the `animalSrc` inventory. -/
theorem process_command_normalizes_witness :
    (normalizeIntent { target_class := some (pys "ANIMAL") } animalAnalysis).target_class =
      some (pys "Animal") :=
  (process_command_normalizes_class_fields
    { target_class := some (pys "ANIMAL") } animalAnalysis
    (pys "ANIMAL") (pys "Animal") animalInfo rfl).2.2.1 rfl

/-- Intent of `remove_class` carrying a lower-cased variant of a class
name that exists (as `Animal`) in the inventory. -/
def removeClassLowerIntent : Intent :=
  { action := some (pys "remove_class"), class_name := some (pys "animal") }

/-- C2 (counterexample).  The `class_name` field is not normalized and
`remove_class` looks it up exactly, so a casing variant of an existing
class produces a class-not-found error instead of editing the class. -/
theorem process_command_remove_class_case_counterexample :
    pyLower (pys "animal") = pyLower (pys "Animal") ∧
    animalAnalysis.classes.map Prod.fst = [pys "Animal"] ∧
    processCommand animalSrc removeClassLowerIntent animalAnalysis =
      .ok (pys "Error: Class animal not found") :=
  ⟨rfl, rfl, rfl⟩

end JavisSpec

namespace JavisSpec

/-! ## C7 -/

/-- C7 (amended).  The loop block forces the action to `add_loop` for
every instruction whose lower-cased text contains `loop` — regardless of
the base-action/target-type composition — *provided* no later block
fires: the conditional block (trigger substrings `conditional`,
`if/else`, `switch`, `statement`) and the polymorphism block (trigger
substrings `override`, `polymorphism`) run afterwards and overwrite the
action.  Likewise any conditional trigger forces `add_conditional`
(overriding a loop trigger) unless a polymorphism trigger is present. -/
theorem parse_command_loop_conditional_actions (cmdText : PyStr) :
    (containsSub (pys "loop") (pyLower cmdText) = true →
     containsSub (pys "conditional") (pyLower cmdText) = false →
     containsSub (pys "if/else") (pyLower cmdText) = false →
     containsSub (pys "switch") (pyLower cmdText) = false →
     containsSub (pys "statement") (pyLower cmdText) = false →
     containsSub (pys "override") (pyLower cmdText) = false →
     containsSub (pys "polymorphism") (pyLower cmdText) = false →
     actionOf cmdText = pys "add_loop") ∧
    ((containsSub (pys "conditional") (pyLower cmdText) = true ∨
      containsSub (pys "if/else") (pyLower cmdText) = true ∨
      containsSub (pys "switch") (pyLower cmdText) = true ∨
      containsSub (pys "statement") (pyLower cmdText) = true) →
     containsSub (pys "override") (pyLower cmdText) = false →
     containsSub (pys "polymorphism") (pyLower cmdText) = false →
     actionOf cmdText = pys "add_conditional") := by
  constructor
  · intro h1 h2 h3 h4 h5 h6 h7
    have e1 : containsSub (pys "polymorphism") (pys "add_loop") = false := by decide
    have e2 : pys "add_loop" ≠ pys "add_conditional" := by decide
    simp [actionOf, h1, h2, h3, h4, h5, h6, h7, e1, e2]
  · intro h h6 h7
    have e1 : containsSub (pys "polymorphism") (pys "add_conditional") = false := by decide
    rcases h with h | h | h | h <;> simp [actionOf, h, h6, h7, e1]

/-- C7 (witness): a plain loop instruction yields `add_loop`, a plain
conditional instruction yields `add_conditional`. -/
theorem parse_command_loop_conditional_witness :
    actionOf (pys "Add a for loop to the process_items method") = pys "add_loop" ∧
    actionOf (pys "Add if/else conditional to the validate method") = pys "add_conditional" :=
  ⟨(parse_command_loop_conditional_actions _).1 (by decide) (by decide) (by decide)
      (by decide) (by decide) (by decide) (by decide),
   (parse_command_loop_conditional_actions _).2 (Or.inl (by decide)) (by decide) (by decide)⟩

/-- C7 (counterexample).  An instruction containing a loop trigger can
still end with action `add_conditional`: the conditional block runs
after the loop block and overwrites it whenever its own trigger (here
`statement`) is present. -/
theorem parse_command_loop_overridden_counterexample :
    containsSub (pys "loop") (pyLower (pys "Add a loop statement to the foo method")) = true ∧
    actionOf (pys "Add a loop statement to the foo method") = pys "add_conditional" ∧
    pys "add_conditional" ≠ pys "add_loop" :=
  ⟨by decide, by decide, by decide⟩

/-! ## C10 -/

/-- C10 (amended).  Every instruction containing `override` or
`polymorphism` (lower-cased) gets action `add_polymorphism` — for bare
`overload` this holds only when a base action resolves, which the
counterexample shows — and the dispatcher has no `add_polymorphism`
branch, so the line-based pipeline answers with the unsupported-action
error string instead of performing the override edit. -/
theorem parse_polymorphism_unsupported_action :
    (∀ cmdText : PyStr,
      containsSub (pys "override") (pyLower cmdText) = true ∨
      containsSub (pys "polymorphism") (pyLower cmdText) = true →
      actionOf cmdText = pys "add_polymorphism") ∧
    (∀ (lines : List PyStr) (analysis : GenAnalysis) (intent : Intent),
      intent.action = some (pys "add_polymorphism") →
      generateModifiedCode lines analysis intent =
        .ok (pys "Error: Unsupported action add_polymorphism")) := by
  constructor
  · intro cmdText h
    rcases h with h | h <;> simp [actionOf, h]
  · intro lines analysis intent h
    simp [generateModifiedCode, h, showOpt, pys]

/-- C10 (witness): a concrete override instruction ends in the
unsupported-action error. -/
theorem parse_polymorphism_unsupported_witness :
    actionOf (pys "Add polymorphism by overriding speak method") = pys "add_polymorphism" ∧
    generateModifiedCode (splitLines animalSrc) animalAnalysis
      { action := some (pys "add_polymorphism") } =
      .ok (pys "Error: Unsupported action add_polymorphism") :=
  ⟨parse_polymorphism_unsupported_action.1 _ (Or.inr (by decide)),
   parse_polymorphism_unsupported_action.2 _ _ _ rfl⟩

/-- C10 (counterexample).  An instruction containing `overload` but no
base-action keyword (and neither `override` nor `polymorphism` as a
substring) keeps action `unknown`: the polymorphism block's trigger list
does not include `overload`, and the target-type `polymorphism` is
discarded when no base action resolves. -/
theorem parse_overload_unknown_counterexample :
    containsSub (pys "overload") (pyLower (pys "overload foo")) = true ∧
    actionOf (pys "overload foo") = pys "unknown" ∧
    pys "unknown" ≠ pys "add_polymorphism" :=
  ⟨by decide, by decide, by decide⟩

end JavisSpec

namespace JavisSpec

/-! ## C6 -/

/-- C6 (amended).  When `add_abstract_method` resolves its class and no
`abc` import is present, it inserts the import and applies the in-place
inventory shift before splicing: both line bounds of every class and of
every method move by `+1`, but only `line_start` of every attribute (the
attribute's `line_end` is not touched); all other fields — and the
top-level `functions` list — are unchanged.  `shiftAnalysis` /
`shiftClassInfo` / `shiftLoc1` / `shiftLocStart` spell the shift out. -/
theorem add_abstract_method_shifts_inventory
    (lines : List PyStr) (analysis : GenAnalysis) (intent : Intent)
    (t : PyStr) (ci : ClassInfo)
    (ha : intent.action = some (pys "add_abstract_method"))
    (ht : intent.target_class = some t)
    (hc : dictLookup analysis.classes t = some ci)
    (habc : ∀ l ∈ lines, containsSub (pys "import abc") l = false ∧
        containsSub (pys "from abc import") l = false) :
    (addAbstractMethod lines analysis intent).2 = shiftAnalysis analysis ∧
    (shiftAnalysis analysis).functions = analysis.functions := by
  have habc' : (lines.any (fun l =>
      containsSub (pys "import abc") l || containsSub (pys "from abc import") l)) = false := by
    rw [List.any_eq_false]
    intro l hl
    simp [(habc l hl).1, (habc l hl).2]
  refine ⟨?_, rfl⟩
  simp [addAbstractMethod, ha, ht, hc, habc']

/-- Intent used for the C6 instances. -/
def abstractFooIntent : Intent :=
  { action := some (pys "add_abstract_method"), target_class := some (pys "A"),
    method_name := some (pys "foo") }

/-- C6 (witness): on `initSrc` (no `abc` import) the final inventory is
exactly the shifted one. -/
theorem add_abstract_method_shift_witness :
    (addAbstractMethod (splitLines initSrc) initAnalysis abstractFooIntent).2 =
      shiftAnalysis initAnalysis :=
  (add_abstract_method_shifts_inventory (splitLines initSrc) initAnalysis
    abstractFooIntent (pys "A")
    (classInfoOf (pys "A") []
      [.functionDef (pys "__init__") [pys "self", pys "x"]
        [.assign [.attrOfName (pys "self") (pys "x")]
          { lineno := 3, end_lineno := 3, col_offset := 8, end_col_offset := 18 }]
        { lineno := 2, end_lineno := 3, col_offset := 4, end_col_offset := 18 }]
      { lineno := 1, end_lineno := 3, col_offset := 0, end_col_offset := 18 })
    rfl rfl rfl (by decide)).1

/-- C6 (counterexample).  The import is inserted (the result text starts
with it), the attribute's `line_start` moves from 3 to 4, but its
`line_end` stays 3 — the claim's "both line bounds of every attribute"
fails. -/
theorem add_abstract_method_attr_end_counterexample :
    initAnalysis.classes.map
      (fun (p : PyStr × ClassInfo) => p.2.attributes.map
        (fun (a : AttrInfo) => (a.location.line_start, a.location.line_end))) =
      [[((3 : Int), (3 : Int))]] ∧
    (addAbstractMethod (splitLines initSrc) initAnalysis abstractFooIntent).2.classes.map
      (fun (p : PyStr × ClassInfo) => p.2.attributes.map
        (fun (a : AttrInfo) => (a.location.line_start, a.location.line_end))) =
      [[((4 : Int), (3 : Int))]] ∧
    ((4 : Int), (3 : Int)) ≠ ((4 : Int), (4 : Int)) ∧
    (match (addAbstractMethod (splitLines initSrc) initAnalysis abstractFooIntent).1 with
     | .ok s => (splitLines s).headD []
     | .error _ => []) = pys "from abc import ABC, abstractmethod" :=
  ⟨rfl, rfl, by decide, rfl⟩

end JavisSpec

namespace JavisSpec

/-! ## C8 -/

/-- Class-name list of a successful analysis. -/
def classNamesOf (r : AnalyzerResult) : List PyStr :=
  match r with
  | .success cs _ _ => cs.map Prod.fst
  | .error _ _ _ => []

/-- Per-class method-name lists of a successful analysis. -/
def methodNamesOf (r : AnalyzerResult) : List (List PyStr) :=
  match r with
  | .success cs _ _ => cs.map (fun p => p.2.methods.map FunctionInfo.name)
  | .error _ _ _ => []

/-- Per-class attribute-name lists of a successful analysis. -/
def attrNamesOf (r : AnalyzerResult) : List (List PyStr) :=
  match r with
  | .success cs _ _ => cs.map (fun p => p.2.attributes.map AttrInfo.name)
  | .error _ _ _ => []

/-- Intermediate text after adding method `eat` to `animalSrc` (which
already holds the casing variant `Eat`). -/
def eatMidSrc : PyStr := animalSrc ++ pys "\n    def eat(self):\n        pass"

/-- Hand-derived AST of `eatMidSrc`. -/
def eatMidAst : List PyStmt :=
  [.classDef (pys "Animal") []
    [.functionDef (pys "Eat") [pys "self"] [.other]
      { lineno := 2, end_lineno := 3, col_offset := 4, end_col_offset := 12 },
     .functionDef (pys "eat") [pys "self"] [.other]
      { lineno := 4, end_lineno := 5, col_offset := 4, end_col_offset := 12 }]
    { lineno := 1, end_lineno := 5, col_offset := 0, end_col_offset := 12 }]

/-- Final text after removing `eat` from `eatMidSrc` — the
case-insensitive method search hits the pre-existing `Eat` first and
deletes it, so the added `eat` survives. -/
def eatFinalSrc : PyStr := pys "class Animal:\n    def eat(self):\n        pass"

/-- Hand-derived AST of `eatFinalSrc`. -/
def eatFinalAst : List PyStmt :=
  [.classDef (pys "Animal") []
    [.functionDef (pys "eat") [pys "self"] [.other] eatLoc] animalLoc]

/-- C8 (counterexample).  The add-then-remove round trip changes the
analyzer's method-name sets when the added method name collides
case-insensitively with an existing method: adding `eat` to a class with
`Eat` and then removing `eat` (inventory re-analyzed from the
intermediate text) deletes `Eat` instead, leaving name set `{eat}` where
the original had `{Eat}`. -/
theorem add_remove_method_collision_counterexample :
    addMethod (splitLines animalSrc) animalAnalysis
      { action := some (pys "add_method"), method_name := some (pys "eat"),
        target_class := some (pys "Animal") } = .ok eatMidSrc ∧
    removeMethod (splitLines eatMidSrc) (toGen (extractStructure (.ok eatMidAst)))
      { action := some (pys "remove_method"), method_name := some (pys "eat"),
        target_class := some (pys "Animal") } = .ok eatFinalSrc ∧
    methodNamesOf (extractStructure (.ok animalAst)) = [[pys "Eat"]] ∧
    methodNamesOf (extractStructure (.ok eatFinalAst)) = [[pys "eat"]] ∧
    ([[pys "Eat"]] : List (List PyStr)) ≠ [[pys "eat"]] :=
  ⟨rfl, rfl, rfl, rfl, by decide⟩

/-- Intermediate text after adding method `run` to `animalSrc`. -/
def runMidSrc : PyStr := animalSrc ++ pys "\n    def run(self):\n        pass"

/-- Hand-derived AST of `runMidSrc`. -/
def runMidAst : List PyStmt :=
  [.classDef (pys "Animal") []
    [.functionDef (pys "Eat") [pys "self"] [.other]
      { lineno := 2, end_lineno := 3, col_offset := 4, end_col_offset := 12 },
     .functionDef (pys "run") [pys "self"] [.other]
      { lineno := 4, end_lineno := 5, col_offset := 4, end_col_offset := 12 }]
    { lineno := 1, end_lineno := 5, col_offset := 0, end_col_offset := 12 }]

/-- Intermediate text after adding class `Robot` to `animalSrc`
(`add_class` splices one element holding two leading newlines). -/
def robotMidSrc : PyStr := animalSrc ++ pys "\n\n\nclass Robot:\n    pass"

/-- Hand-derived AST of `robotMidSrc`. -/
def robotMidAst : List PyStmt :=
  [.classDef (pys "Animal") []
    [.functionDef (pys "Eat") [pys "self"] [.other] eatLoc] animalLoc,
   .classDef (pys "Robot") [] [.other]
    { lineno := 6, end_lineno := 7, col_offset := 0, end_col_offset := 8 }]

/-- Hand-derived AST of the class-pair round-trip result
`animalSrc ++ "\n\n"`: trailing blank lines contribute no statements, so
the statements coincide with those of `animalSrc`. -/
def robotFinalAst : List PyStmt :=
  [.classDef (pys "Animal") []
    [.functionDef (pys "Eat") [pys "self"] [.other] eatLoc] animalLoc]

/-- Intermediate text after adding attribute `y` to `initSrc`. -/
def yMidSrc : PyStr :=
  pys "class A:\n    def __init__(self, x, y):\n        self.y = y\n        self.x = x"

/-- Hand-derived AST of `yMidSrc`. -/
def yMidAst : List PyStmt :=
  [.classDef (pys "A") []
    [.functionDef (pys "__init__") [pys "self", pys "x", pys "y"]
      [.assign [.attrOfName (pys "self") (pys "y")]
        { lineno := 3, end_lineno := 3, col_offset := 8, end_col_offset := 18 },
       .assign [.attrOfName (pys "self") (pys "x")]
        { lineno := 4, end_lineno := 4, col_offset := 8, end_col_offset := 18 }]
      { lineno := 2, end_lineno := 4, col_offset := 4, end_col_offset := 18 }]
    { lineno := 1, end_lineno := 4, col_offset := 0, end_col_offset := 18 }]

/-- C8 (amended).  With no case-insensitive name collision the add/remove
round trips restore the analyzer's name sets on the representative
instances of all three pairs — the method and attribute pairs even
restore the text byte-for-byte, the class pair leaves two extra blank
lines whose analysis carries the same class/method/attribute name sets. -/
theorem add_remove_roundtrip_representatives :
    (addMethod (splitLines animalSrc) animalAnalysis
       { action := some (pys "add_method"), method_name := some (pys "run"),
         target_class := some (pys "Animal") } = .ok runMidSrc ∧
     removeMethod (splitLines runMidSrc) (toGen (extractStructure (.ok runMidAst)))
       { action := some (pys "remove_method"), method_name := some (pys "run"),
         target_class := some (pys "Animal") } = .ok animalSrc) ∧
    (addClass (splitLines animalSrc) animalAnalysis
       { action := some (pys "add_class"), class_name := some (pys "Robot") } =
         .ok robotMidSrc ∧
     removeClass (splitLines robotMidSrc) (toGen (extractStructure (.ok robotMidAst)))
       { action := some (pys "remove_class"), class_name := some (pys "Robot") } =
         .ok (animalSrc ++ pys "\n\n") ∧
     classNamesOf (extractStructure (.ok robotFinalAst)) =
       classNamesOf (extractStructure (.ok animalAst)) ∧
     methodNamesOf (extractStructure (.ok robotFinalAst)) =
       methodNamesOf (extractStructure (.ok animalAst)) ∧
     attrNamesOf (extractStructure (.ok robotFinalAst)) =
       attrNamesOf (extractStructure (.ok animalAst))) ∧
    (addAttribute (splitLines initSrc) initAnalysis
       { action := some (pys "add_attribute"), target_class := some (pys "A"),
         attribute_name := some (pys "y") } = .ok yMidSrc ∧
     removeAttribute (splitLines yMidSrc) (toGen (extractStructure (.ok yMidAst)))
       { action := some (pys "remove_attribute"), target_class := some (pys "A"),
         attribute_name := some (pys "y") } = .ok initSrc) :=
  ⟨⟨rfl, rfl⟩, ⟨rfl, rfl, rfl, rfl, rfl⟩, ⟨rfl, rfl⟩⟩

end JavisSpec

namespace JavisSpec

/-! ## C3 -/

/-- Whether a statement is a class definition with the given name. -/
def isClassNamed (name : PyStr) : PyStmt → Bool
  | .classDef n _ _ _ => n = name
  | _ => false

/-- The last `ClassDef` child with the given name — the one whose info
survives in the dictionary when names repeat (Python dict assignment
overwrites the value). -/
def lastClassDef (name : PyStr) : List PyStmt → Option (List PyBase × List PyStmt × PyLoc)
  | [] => none
  | s :: rest =>
    match lastClassDef name rest with
    | some x => some x
    | none =>
      match s with
      | .classDef n bases body l => if n = name then some (bases, body, l) else none
      | _ => none

/-- Looking up the key just inserted gives the inserted value. -/
theorem dictLookup_dictInsert_self {α : Type} (l : List (PyStr × α)) (k : PyStr) (v : α) :
    dictLookup (dictInsert l k v) k = some v := by
  induction l with
  | nil => simp [dictInsert, dictLookup]
  | cons p rest ih =>
    obtain ⟨k', v'⟩ := p
    by_cases h : k' = k
    · simp [dictInsert, h, dictLookup]
    · simp [dictInsert, h, dictLookup, ih]

/-- Insertion does not disturb lookups of other keys. -/
theorem dictLookup_dictInsert_ne {α : Type} (l : List (PyStr × α)) (k k' : PyStr)
    (v : α) (h : k' ≠ k) :
    dictLookup (dictInsert l k v) k' = dictLookup l k' := by
  induction l with
  | nil => simp [dictInsert, dictLookup, Ne.symm h]
  | cons p rest ih =>
    obtain ⟨k0, v0⟩ := p
    by_cases h0 : k0 = k
    · subst h0
      simp [dictInsert, dictLookup, Ne.symm h]
    · simp [dictInsert, h0, dictLookup, ih]

/-- Lookup in the accumulated `classes` dictionary is decided by the last
same-named `ClassDef` child, falling back to the accumulator. -/
theorem foldl_classesStep_lookup (name : PyStr) (stmts : List PyStmt) :
    ∀ acc : List (PyStr × ClassInfo),
    dictLookup (stmts.foldl classesStep acc) name =
      (match lastClassDef name stmts with
       | some (bases, body, l) => some (classInfoOf name bases body l)
       | none => dictLookup acc name) := by
  induction stmts with
  | nil => intro acc; simp [lastClassDef]
  | cons s rest ih =>
    intro acc
    rw [List.foldl_cons, ih]
    cases hrest : lastClassDef name rest with
    | some x => simp [lastClassDef, hrest]
    | none =>
      simp only [lastClassDef, hrest]
      cases s with
      | classDef n bases body l =>
        by_cases hn : n = name
        · subst hn
          simp [classesStep, dictLookup_dictInsert_self]
        · simp [classesStep, hn,
            dictLookup_dictInsert_ne _ _ _ _ (fun hh => hn hh.symm)]
      | functionDef n args body l => simp [classesStep]
      | assign t l => simp [classesStep]
      | importS names => simp [classesStep]
      | importFrom mo names => simp [classesStep]
      | other => simp [classesStep]

/-- A last-class hit exists exactly when a same-named `ClassDef` child
exists. -/
theorem lastClassDef_isSome_iff (name : PyStr) (stmts : List PyStmt) :
    (lastClassDef name stmts).isSome = true ↔
      ∃ s ∈ stmts, isClassNamed name s = true := by
  induction stmts with
  | nil => simp [lastClassDef]
  | cons s rest ih =>
    cases hrest : lastClassDef name rest with
    | some x =>
      simp only [lastClassDef, hrest, Option.isSome_some, true_iff]
      obtain ⟨s2, hs2, hn2⟩ := ih.mp (by simp [hrest])
      exact ⟨s2, List.mem_cons_of_mem _ hs2, hn2⟩
    | none =>
      have hrest' : ¬ ∃ s ∈ rest, isClassNamed name s = true := by
        intro hex
        have := ih.mpr hex
        rw [hrest] at this
        simp at this
      simp only [lastClassDef, hrest]
      constructor
      · intro h
        cases s with
        | classDef n bases body l =>
          by_cases hn : n = name
          · exact ⟨.classDef n bases body l, List.mem_cons_self _ _, by simp [isClassNamed, hn]⟩
          · simp [hn] at h
        | functionDef n args body l => simp at h
        | assign t l => simp at h
        | importS names => simp at h
        | importFrom mo names => simp at h
        | other => simp at h
      · rintro ⟨s', hs', hnamed⟩
        rcases List.mem_cons.mp hs' with h | h
        · subst h
          cases s' with
          | classDef n bases body l =>
            simp [isClassNamed] at hnamed
            simp [hnamed]
          | functionDef n args body l => simp [isClassNamed] at hnamed
          | assign t l => simp [isClassNamed] at hnamed
          | importS names => simp [isClassNamed] at hnamed
          | importFrom mo names => simp [isClassNamed] at hnamed
          | other => simp [isClassNamed] at hnamed
        · exact absurd ⟨s', h, hnamed⟩ hrest'

/-- The last-class hit is an actual child of the module. -/
theorem lastClassDef_mem (name : PyStr) (stmts : List PyStmt)
    (bases : List PyBase) (body : List PyStmt) (l : PyLoc)
    (h : lastClassDef name stmts = some (bases, body, l)) :
    PyStmt.classDef name bases body l ∈ stmts := by
  induction stmts with
  | nil => simp [lastClassDef] at h
  | cons s rest ih =>
    simp only [lastClassDef] at h
    cases hrest : lastClassDef name rest with
    | some x =>
      rw [hrest] at h
      simp only [Option.some.injEq] at h
      subst h
      exact List.mem_cons_of_mem _ (ih hrest)
    | none =>
      rw [hrest] at h
      cases s with
      | classDef n bases2 body2 l2 =>
        by_cases hn : n = name
        · subst hn
          simp only [Option.some.injEq, Prod.mk.injEq, if_pos] at h
          obtain ⟨h1, h2, h3⟩ := h
          subst h1; subst h2; subst h3
          exact List.mem_cons_self _ _
        · simp [hn] at h
      | functionDef n args body2 l2 => simp at h
      | assign t l2 => simp at h
      | importS names => simp at h
      | importFrom mo names => simp at h
      | other => simp at h

end JavisSpec

namespace JavisSpec

/-- The `Assign`-statement locations of a constructor body (a superset of
the locations the attribute detector can record). -/
def initAssignLocs (body : List PyStmt) : List PyLoc :=
  body.filterMap (fun s => match s with | .assign _ l => some l | _ => none)

/-- The node locations the analyzer reads inside one class body: each
direct `FunctionDef`'s, plus the assignment statements of `__init__`. -/
def classShallowLocs (body : List PyStmt) : List PyLoc :=
  body.flatMap (fun item =>
    match item with
    | .functionDef n _ b l => l :: (if n = pys "__init__" then initAssignLocs b else [])
    | _ => [])

/-- All node locations the analyzer reads in a module: top-level
functions, classes, and their shallow class-body locations. -/
def moduleShallowLocs (m : List PyStmt) : List PyLoc :=
  m.flatMap (fun s =>
    match s with
    | .functionDef _ _ _ l => [l]
    | .classDef _ _ body l => l :: classShallowLocs body
    | _ => [])

/-- The parser guarantee the analyzer relies on: every node location it
will read is ordered (`lineno ≤ end_lineno`), which CPython's `ast`
ensures for every node of a successfully parsed file. -/
def wellLocated (m : List PyStmt) : Prop :=
  ∀ pl ∈ moduleShallowLocs m, pl.lineno ≤ pl.end_lineno

/-- Every location recorded in the analysis result. -/
def recordedLocs (r : AnalyzerResult) : List Loc :=
  match r with
  | .error _ _ _ => []
  | .success cs fs _ =>
    fs.map FunctionInfo.location ++
    cs.flatMap (fun p =>
      p.2.location :: (p.2.methods.map FunctionInfo.location ++
        p.2.attributes.map AttrInfo.location))

/-- Membership after a dict insertion comes from the old dictionary or is
the inserted pair. -/
theorem mem_dictInsert {α : Type} (l : List (PyStr × α)) (k : PyStr) (v : α)
    (p : PyStr × α) (h : p ∈ dictInsert l k v) : p ∈ l ∨ p = (k, v) := by
  induction l with
  | nil => simp [dictInsert] at h; right; exact h
  | cons q rest ih =>
    obtain ⟨k0, v0⟩ := q
    by_cases h0 : k0 = k
    · simp [dictInsert, h0] at h
      rcases h with h | h
      · right; simp [h]
      · left; exact List.mem_cons_of_mem _ h
    · simp [dictInsert, h0] at h
      rcases h with h | h
      · left; simp [h]
      · rcases ih h with h2 | h2
        · left; exact List.mem_cons_of_mem _ h2
        · right; exact h2

/-- Every entry of the accumulated `classes` dictionary is the class info
of some `ClassDef` child (or was already in the accumulator). -/
theorem mem_foldl_classesStep (stmts : List PyStmt) :
    ∀ (acc : List (PyStr × ClassInfo)) (p : PyStr × ClassInfo),
    p ∈ stmts.foldl classesStep acc →
    p ∈ acc ∨ ∃ n bases body l, PyStmt.classDef n bases body l ∈ stmts ∧
      p = (n, classInfoOf n bases body l) := by
  induction stmts with
  | nil => intro acc p h; left; simpa using h
  | cons s rest ih =>
    intro acc p h
    rw [List.foldl_cons] at h
    rcases ih (classesStep acc s) p h with h2 | h2
    · cases s with
      | classDef n bases body l =>
        rcases mem_dictInsert _ _ _ _ h2 with h3 | h3
        · left; exact h3
        · right
          exact ⟨n, bases, body, l, List.mem_cons_self _ _, h3⟩
      | functionDef n args body l => left; exact h2
      | assign t l => left; exact h2
      | importS names => left; exact h2
      | importFrom mo names => left; exact h2
      | other => left; exact h2
    · right
      obtain ⟨n, bases, body, l, hmem, hp⟩ := h2
      exact ⟨n, bases, body, l, List.mem_cons_of_mem _ hmem, hp⟩

/-- Every location recorded in one class info is the location of the
`ClassDef` node itself or of one of the shallow class-body nodes. -/
theorem classInfo_loc_mem (n : PyStr) (bases : List PyBase) (body : List PyStmt)
    (l : PyLoc) (L : Loc)
    (h : L ∈ (classInfoOf n bases body l).location ::
      ((classInfoOf n bases body l).methods.map FunctionInfo.location ++
       (classInfoOf n bases body l).attributes.map AttrInfo.location)) :
    L = locOf l ∨ ∃ pl ∈ classShallowLocs body, L = locOf pl := by
  rcases List.mem_cons.mp h with h | h
  · left; exact h
  rcases List.mem_append.mp h with h | h
  · -- a method location
    right
    obtain ⟨mi, hmi, hL⟩ := List.mem_map.mp h
    obtain ⟨item, hitem, hsome⟩ := List.mem_filterMap.mp hmi
    cases item with
    | functionDef n2 args2 b2 l2 =>
      simp [methodOfItem] at hsome
      refine ⟨l2, ?_, ?_⟩
      · exact List.mem_flatMap.mpr ⟨_, hitem, by simp⟩
      · rw [← hL, ← hsome]
    | classDef n2 b2 bd2 l2 => simp [methodOfItem] at hsome
    | assign t2 l2 => simp [methodOfItem] at hsome
    | importS names => simp [methodOfItem] at hsome
    | importFrom mo names => simp [methodOfItem] at hsome
    | other => simp [methodOfItem] at hsome
  · -- an attribute location
    right
    obtain ⟨ai, hai, hL⟩ := List.mem_map.mp h
    obtain ⟨item, hitem, hin⟩ := List.mem_flatMap.mp hai
    cases item with
    | functionDef n2 args2 b2 l2 =>
      by_cases hn2 : n2 = pys "__init__"
      · simp only [attrsOfItem, hn2, eq_self_iff_true, if_true] at hin
        obtain ⟨stmt, hstmt, hin2⟩ := List.mem_flatMap.mp hin
        cases stmt with
        | assign targets l3 =>
          obtain ⟨t, ht, hsome⟩ := List.mem_filterMap.mp hin2
          cases t with
          | attrOfName v a =>
            by_cases hv : v = pys "self"
            · simp only [hv, eq_self_iff_true, if_true, Option.some.injEq] at hsome
              refine ⟨l3, ?_, ?_⟩
              · refine List.mem_flatMap.mpr ⟨.functionDef n2 args2 b2 l2, hitem, ?_⟩
                simp only [hn2, eq_self_iff_true, if_true]
                refine List.mem_cons_of_mem _ ?_
                exact List.mem_filterMap.mpr ⟨_, hstmt, rfl⟩
              · rw [← hL, ← hsome]
            · simp [hv] at hsome
          | otherTarget => simp at hsome
        | classDef n3 b3 bd3 l3 => simp at hin2
        | functionDef n3 a3 b3 l3 => simp at hin2
        | importS names => simp at hin2
        | importFrom mo names => simp at hin2
        | other => simp at hin2
      · simp [attrsOfItem, hn2] at hin
    | classDef n2 b2 bd2 l2 => simp [attrsOfItem] at hin
    | assign t2 l2 => simp [attrsOfItem] at hin
    | importS names => simp [attrsOfItem] at hin
    | importFrom mo names => simp [attrsOfItem] at hin
    | other => simp [attrsOfItem] at hin

end JavisSpec

namespace JavisSpec

/-- C3.  On every parsed module the analyzer reports success, its
`classes` map holds exactly the module's direct `ClassDef` children
(nested classes and functions inside functions are invisible to the
one-level walk), each entry carries the verbatim node location of (one
of) its definition(s) — the parser's header-to-last-body-line span — and,
under the parser's location guarantee, every recorded location satisfies
`line_start ≤ line_end`. -/
theorem extract_structure_success_classes (m : List PyStmt) :
    (extractStructure (.ok m)).statusStr = pys "success" ∧
    (extractStructure (.ok m)).classes? = some (classesOf m) ∧
    (∀ name : PyStr,
      (dictLookup (classesOf m) name).isSome = true ↔
        ∃ s ∈ m, isClassNamed name s = true) ∧
    (∀ name ci, dictLookup (classesOf m) name = some ci →
      ∃ bases body l, PyStmt.classDef name bases body l ∈ m ∧
        ci = classInfoOf name bases body l ∧ ci.location = locOf l) ∧
    (wellLocated m →
      ∀ L ∈ recordedLocs (extractStructure (.ok m)), L.line_start ≤ L.line_end) := by
  refine ⟨rfl, rfl, ?_, ?_, ?_⟩
  · intro name
    have key := lastClassDef_isSome_iff name m
    cases hlast : lastClassDef name m with
    | some x =>
      obtain ⟨b, bd, l⟩ := x
      rw [hlast] at key
      simp only [Option.isSome_some, true_iff] at key
      simp only [classesOf, foldl_classesStep_lookup, hlast, Option.isSome_some, true_iff]
      exact key
    | none =>
      rw [hlast] at key
      simp only [Option.isSome_none, Bool.false_eq_true, false_iff] at key
      simp only [classesOf, foldl_classesStep_lookup, hlast, dictLookup,
        Option.isSome_none, Bool.false_eq_true, false_iff]
      exact key
  · intro name ci h
    rw [classesOf, foldl_classesStep_lookup] at h
    cases hlast : lastClassDef name m with
    | some x =>
      obtain ⟨b, bd, l⟩ := x
      rw [hlast] at h
      simp only [Option.some.injEq] at h
      subst h
      exact ⟨b, bd, l, lastClassDef_mem name m b bd l hlast, rfl, rfl⟩
    | none =>
      rw [hlast] at h
      simp [dictLookup] at h
  · intro hwl L hL
    simp only [extractStructure, recordedLocs] at hL
    rcases List.mem_append.mp hL with h | h
    · obtain ⟨fi, hfi, hL2⟩ := List.mem_map.mp h
      obtain ⟨s, hs, hsome⟩ := List.mem_filterMap.mp hfi
      cases s with
      | functionDef n args b pl =>
        simp only [functionsOf, Option.some.injEq] at hsome
        have hpl : pl ∈ moduleShallowLocs m :=
          List.mem_flatMap.mpr ⟨_, hs, by simp⟩
        have hb := hwl pl hpl
        rw [← hL2, ← hsome]
        exact hb
      | classDef n b bd pl => simp [functionsOf] at hsome
      | assign t pl => simp [functionsOf] at hsome
      | importS names => simp [functionsOf] at hsome
      | importFrom mo names => simp [functionsOf] at hsome
      | other => simp [functionsOf] at hsome
    · obtain ⟨p, hp, hLp⟩ := List.mem_flatMap.mp h
      rcases mem_foldl_classesStep m [] p hp with h2 | h2
      · simp at h2
      obtain ⟨n, b, bd, pl, hmem, hpeq⟩ := h2
      subst hpeq
      have hmod : pl ∈ moduleShallowLocs m :=
        List.mem_flatMap.mpr ⟨_, hmem, by simp⟩
      rcases classInfo_loc_mem n b bd pl L hLp with hcase | hcase
      · have hb := hwl pl hmod
        rw [hcase]
        exact hb
      · obtain ⟨pl2, hpl2, hLeq⟩ := hcase
        have hmod2 : pl2 ∈ moduleShallowLocs m :=
          List.mem_flatMap.mpr ⟨_, hmem, List.mem_cons_of_mem _ hpl2⟩
        have hb := hwl pl2 hmod2
        rw [hLeq]
        exact hb

/-- C3 (witness): on the `animalSrc` module the success facts hold at
the concrete class `Animal`. -/
theorem extract_structure_success_witness :
    ((dictLookup (classesOf animalAst) (pys "Animal")).isSome = true) ∧
    (∃ bases body l, PyStmt.classDef (pys "Animal") bases body l ∈ animalAst ∧
      animalInfo = classInfoOf (pys "Animal") bases body l ∧
      animalInfo.location = locOf l) ∧
    (∀ L ∈ recordedLocs (extractStructure (.ok animalAst)),
      L.line_start ≤ L.line_end) := by
  have h := extract_structure_success_classes animalAst
  refine ⟨?_, ?_, ?_⟩
  · exact (h.2.2.1 (pys "Animal")).mpr
      ⟨.classDef (pys "Animal") []
        [.functionDef (pys "Eat") [pys "self"] [.other] eatLoc] animalLoc,
       by simp [animalAst], rfl⟩
  · exact h.2.2.2.1 (pys "Animal") animalInfo rfl
  · refine h.2.2.2.2 ?_
    intro pl hpl
    have he : moduleShallowLocs animalAst = [animalLoc, eatLoc] := rfl
    rw [he] at hpl
    rcases List.mem_cons.mp hpl with h1 | h1
    · rw [h1]; decide
    · rcases List.mem_cons.mp h1 with h2 | h2
      · rw [h2]; decide
      · simp at h2

end JavisSpec

namespace JavisSpec

/-! ## C9 -/

/-- Whether a statement sequence contains no class definition (at its
top level). -/
def cstBodyNoClass : CstBody → Bool
  | .nil => true
  | .cons s rest =>
    (match s with
     | .classDef _ _ => false
     | _ => true) && cstBodyNoClass rest

/-- The transformer changes no top-level function names, so the
membership scan gives the same answer before and after. -/
theorem cstBodyHasFn_transform (c m q : PyStr) : (b : CstBody) →
    cstBodyHasFn q (addMethodTransformBody c m b) = cstBodyHasFn q b
  | .nil => rfl
  | .cons s rest => by
    have ih := cstBodyHasFn_transform c m q rest
    cases s with
    | classDef n b2 =>
      by_cases h1 : n = c
      · by_cases h2 : cstBodyHasFn m b2 = true
        · simp [addMethodTransformBody, addMethodTransformStmt, h1, h2, cstBodyHasFn, ih]
        · simp only [Bool.not_eq_true] at h2
          simp [addMethodTransformBody, addMethodTransformStmt, h1, h2, cstBodyHasFn, ih]
      · simp [addMethodTransformBody, addMethodTransformStmt, h1, cstBodyHasFn, ih]
    | functionDef n p bd =>
      simp [addMethodTransformBody, addMethodTransformStmt, cstBodyHasFn, ih]
    | otherStmt code =>
      simp [addMethodTransformBody, addMethodTransformStmt, cstBodyHasFn, ih]

/-- The transformer distributes over appending a statement. -/
theorem transformBody_append (c m : PyStr) : (b : CstBody) → (s : CstStmt) →
    addMethodTransformBody c m (cstBodyAppend b s) =
      cstBodyAppend (addMethodTransformBody c m b) (addMethodTransformStmt c m s)
  | .nil, s => rfl
  | .cons x rest, s => by
    have ih := transformBody_append c m rest s
    simp [addMethodTransformBody, cstBodyAppend, ih]

/-- After appending the new method, the membership scan for its name
succeeds. -/
theorem cstBodyHasFn_append_new (m : PyStr) : (b : CstBody) →
    cstBodyHasFn m (cstBodyAppend b (cstNewMethod m)) = true
  | .nil => by simp [cstBodyAppend, cstNewMethod, cstBodyHasFn]
  | .cons x rest => by
    have ih := cstBodyHasFn_append_new m rest
    simp [cstBodyAppend, cstBodyHasFn, ih]

/-- A sequence without class definitions is a fixed point of the
transformer. -/
theorem transformBody_of_noClass (c m : PyStr) : (b : CstBody) →
    cstBodyNoClass b = true → addMethodTransformBody c m b = b
  | .nil, _ => rfl
  | .cons s rest, h => by
    simp only [cstBodyNoClass, Bool.and_eq_true] at h
    have ih := transformBody_of_noClass c m rest h.2
    cases s with
    | classDef n b2 => simp at h
    | functionDef n p bd => simp [addMethodTransformBody, addMethodTransformStmt, ih]
    | otherStmt code => simp [addMethodTransformBody, addMethodTransformStmt, ih]

mutual
/-- One pass of the transformer is idempotent on statements. -/
theorem transformStmt_idem (c m : PyStr) : (s : CstStmt) →
    addMethodTransformStmt c m (addMethodTransformStmt c m s) =
      addMethodTransformStmt c m s
  | .classDef n body => by
    by_cases h1 : n = c
    · by_cases h2 : cstBodyHasFn m body = true
      · simp only [addMethodTransformStmt, h1, h2, if_true, eq_self_iff_true,
          cstBodyHasFn_transform, transformBody_idem c m body]
      · simp only [Bool.not_eq_true] at h2
        simp only [addMethodTransformStmt, h1, h2, eq_self_iff_true, if_true,
          Bool.false_eq_true, if_false, cstBodyHasFn_append_new,
          transformBody_append, transformBody_idem c m body]
        rfl
    · simp only [addMethodTransformStmt, h1, if_false,
        transformBody_idem c m body]
  | .functionDef n p b => rfl
  | .otherStmt code => rfl

/-- One pass of the transformer is idempotent on statement sequences. -/
theorem transformBody_idem (c m : PyStr) : (b : CstBody) →
    addMethodTransformBody c m (addMethodTransformBody c m b) =
      addMethodTransformBody c m b
  | .nil => rfl
  | .cons s rest => by
    simp only [addMethodTransformBody]
    rw [transformStmt_idem c m s, transformBody_idem c m rest]
end

/-- C9.  If the class already contains a method of the requested name,
the transformer appends nothing — the class comes back with only the
recursive transformation of its body, and verbatim unchanged when the
body nests no further class definitions — and consequently the
`add`-intent path of `modify_code_with_libcst` is idempotent: applying
it twice gives the same tree (hence the same regenerated source) as
applying it once. -/
theorem add_method_transformer_idempotent :
    (∀ (cName mName n : PyStr) (body : CstBody),
      cstBodyHasFn mName body = true →
      addMethodTransformStmt cName mName (.classDef n body) =
        .classDef n (addMethodTransformBody cName mName body) ∧
      (cstBodyNoClass body = true →
        addMethodTransformStmt cName mName (.classDef n body) = .classDef n body)) ∧
    (∀ (mod : CstBody) (element_type name class_name : Option PyStr),
      modifyCodeAddMethod (modifyCodeAddMethod mod element_type name class_name)
        element_type name class_name =
        modifyCodeAddMethod mod element_type name class_name) := by
  constructor
  · intro cName mName n body hfn
    have hbase : addMethodTransformStmt cName mName (.classDef n body) =
        .classDef n (addMethodTransformBody cName mName body) := by
      by_cases h1 : n = cName
      · simp [addMethodTransformStmt, h1, hfn]
      · simp [addMethodTransformStmt, h1]
    refine ⟨hbase, ?_⟩
    intro hnc
    rw [hbase, transformBody_of_noClass _ _ _ hnc]
  · intro mod element_type name class_name
    by_cases hc : (element_type = some (pys "method") && pyTruthyS name &&
        pyTruthyS class_name) = true
    · simp [modifyCodeAddMethod, hc, transformBody_idem]
    · simp only [Bool.not_eq_true] at hc
      simp [modifyCodeAddMethod, hc]

/-- The class body used by the C9 witness. -/
def dogBody : CstBody :=
  .cons (.functionDef (pys "bark") [pys "self"] (pys "pass")) .nil

/-- C9 (witness): a class already holding `bark` is returned verbatim. -/
theorem add_method_transformer_idempotent_witness :
    addMethodTransformStmt (pys "Dog") (pys "bark") (.classDef (pys "Dog") dogBody) =
      .classDef (pys "Dog") dogBody :=
  (add_method_transformer_idempotent.1 (pys "Dog") (pys "bark") (pys "Dog")
    dogBody rfl).2 rfl

end JavisSpec

namespace JavisSpec

/-! ## C5: the word-boundary replacement, declaratively

The spec describes the reference-update loop as replacing exactly those
occurrences of the old class name that are not adjacent to an
alphanumeric character on either side.  `freeAt` is that occurrence
predicate at a position; `firstFree` finds the least such position;
`wordReplaceSpec` (modelled from the spec's words) repeatedly splices the
new name over the leftmost such occurrence.  The equivalence theorem
below shows the source's character-walk (`wordScan`) computes exactly
this function. -/

/-- Occurrence predicate at position `p` of `l` (with `prev` the
character preceding `l`, `none` at the line start): the old name matches
at `p` and neither neighbouring character is alphanumeric. -/
def freeAt (old : PyStr) (prev : Option Char) (l : PyStr) (p : Nat) : Bool :=
  freeHead old (match p with | 0 => prev | Nat.succ q => l.get? q) (l.drop p)

/-- Least position of a free occurrence, if any. -/
def firstFree (old : PyStr) (prev : Option Char) : PyStr → Option Nat
  | [] => none
  | c :: rest =>
    if freeHead old prev (c :: rest) then some 0
    else (firstFree old (some c) rest).map (· + 1)

/-- Declarative replacement (from the spec's words): splice the new name
over the leftmost free occurrence and continue after it.  The fuel
(initially the line length) only forces termination. -/
def specReplaceAux (old new : PyStr) : Nat → Option Char → PyStr → PyStr
  | 0, _, l => l
  | fuel + 1, prev, l =>
    match firstFree old prev l with
    | none => l
    | some p =>
      l.take p ++ new ++
        specReplaceAux old new fuel (some (lastCharD old ' ')) (l.drop (p + old.length))

/-- Full-line declarative word-boundary replacement. -/
def wordReplaceSpec (old new l : PyStr) : PyStr :=
  specReplaceAux old new l.length none l

/-- Last-character default is irrelevant on non-empty lists. -/
theorem lastCharD_congr (l : PyStr) (h : l ≠ []) (a b : Char) :
    lastCharD l a = lastCharD l b := by
  cases l with
  | nil => exact absurd rfl h
  | cons c rest => rw [lastCharD, lastCharD, List.getLastD_cons, List.getLastD_cons]

/-- Occurrence at position 0 is the head test. -/
theorem freeAt_zero (old : PyStr) (prev : Option Char) (l : PyStr) :
    freeAt old prev l 0 = freeHead old prev l := rfl

/-- Occurrences shift across a cons. -/
theorem freeAt_succ (old : PyStr) (prev : Option Char) (c : Char) (rest : PyStr)
    (p : Nat) : freeAt old prev (c :: rest) (p + 1) = freeAt old (some c) rest p := by
  cases p <;> rfl

/-- A non-empty pattern never occurs in the empty line. -/
theorem freeAt_nil (old : PyStr) (h : old ≠ []) (prev : Option Char) (p : Nat) :
    freeAt old prev [] p = false := by
  cases old with
  | nil => exact absurd rfl h
  | cons c cs => simp [freeAt, freeHead, List.isPrefixOf]

/-- Search failure means no free occurrence anywhere. -/
theorem firstFree_none_iff (old : PyStr) (h : old ≠ []) :
    ∀ (prev : Option Char) (l : PyStr),
    firstFree old prev l = none ↔ ∀ p, freeAt old prev l p = false
  | prev, [] => by
    simp only [firstFree, true_iff]
    intro p
    exact freeAt_nil old h prev p
  | prev, c :: rest => by
    by_cases hf : freeHead old prev (c :: rest) = true
    · simp only [firstFree, hf, if_true]
      constructor
      · intro hs; exact absurd hs (by simp)
      · intro hall
        have := hall 0
        rw [freeAt_zero, hf] at this
        simp at this
    · simp only [Bool.not_eq_true] at hf
      simp only [firstFree, hf, Bool.false_eq_true, if_false, Option.map_eq_none']
      rw [firstFree_none_iff old h (some c) rest]
      constructor
      · intro hall p
        cases p with
        | zero => rw [freeAt_zero, hf]
        | succ q => rw [freeAt_succ]; exact hall q
      · intro hall q
        have := hall (q + 1)
        rw [freeAt_succ] at this
        exact this

/-- Search success returns the least free occurrence. -/
theorem firstFree_some_spec (old : PyStr) (h : old ≠ []) :
    ∀ (prev : Option Char) (l : PyStr) (p : Nat),
    firstFree old prev l = some p →
    freeAt old prev l p = true ∧ ∀ q < p, freeAt old prev l q = false
  | prev, [], p => by simp [firstFree]
  | prev, c :: rest, p => by
    intro hs
    by_cases hf : freeHead old prev (c :: rest) = true
    · simp only [firstFree, hf, if_true, Option.some.injEq] at hs
      subst hs
      exact ⟨by rw [freeAt_zero]; exact hf, fun q hq => absurd hq (Nat.not_lt_zero _)⟩
    · simp only [Bool.not_eq_true] at hf
      simp only [firstFree, hf, Bool.false_eq_true, if_false, Option.map_eq_some'] at hs
      obtain ⟨p2, hp2, hpe⟩ := hs
      subst hpe
      obtain ⟨hfree, hleast⟩ := firstFree_some_spec old h (some c) rest p2 hp2
      refine ⟨by rw [freeAt_succ]; exact hfree, ?_⟩
      intro q hq
      cases q with
      | zero => rw [freeAt_zero, hf]
      | succ q2 =>
        rw [freeAt_succ]
        exact hleast q2 (by omega)

/-- A free occurrence fits inside the line. -/
theorem freeAt_bound (old : PyStr) (h : old ≠ []) (prev : Option Char)
    (l : PyStr) (p : Nat) (hfree : freeAt old prev l p = true) :
    p + old.length ≤ l.length := by
  have hpre : old.isPrefixOf (l.drop p) = true := by
    simp only [freeAt, freeHead, Bool.and_eq_true] at hfree
    exact hfree.1.1
  have hlen : old.length ≤ (l.drop p).length :=
    (List.isPrefixOf_iff_prefix.mp hpre).length_le
  have hone : 1 ≤ old.length := by
    cases old with
    | nil => exact absurd rfl h
    | cons c cs => simp
  simp only [List.length_drop] at hlen
  omega

/-- Without a free occurrence, the declarative replacement is the
identity, at any fuel. -/
theorem specReplaceAux_of_none (old new : PyStr) (prev : Option Char) (l : PyStr)
    (h : firstFree old prev l = none) :
    ∀ fuel, specReplaceAux old new fuel prev l = l := by
  intro fuel
  cases fuel with
  | zero => rfl
  | succ f => simp [specReplaceAux, h]

/-- Fuel above the line length is irrelevant. -/
theorem specReplaceAux_fuel_invariant (old new : PyStr) (h : old ≠ []) :
    ∀ (f1 f2 : Nat) (prev : Option Char) (l : PyStr),
    l.length ≤ f1 → l.length ≤ f2 →
    specReplaceAux old new f1 prev l = specReplaceAux old new f2 prev l := by
  intro f1
  induction f1 with
  | zero =>
    intro f2 prev l hl1 _
    have : l = [] := List.eq_nil_of_length_eq_zero (by omega)
    subst this
    cases f2 with
    | zero => rfl
    | succ g2 => simp [specReplaceAux, firstFree]
  | succ g1 ih =>
    intro f2 prev l hl1 hl2
    cases f2 with
    | zero =>
      have : l = [] := List.eq_nil_of_length_eq_zero (by omega)
      subst this
      simp [specReplaceAux, firstFree]
    | succ g2 =>
      simp only [specReplaceAux]
      cases hff : firstFree old prev l with
      | none => rfl
      | some p =>
        have hfree := (firstFree_some_spec old h prev l p hff).1
        have hb := freeAt_bound old h prev l p hfree
        have hone : 1 ≤ old.length := by
          cases old with
          | nil => exact absurd rfl h
          | cons c cs => simp
        have hdl : (l.drop (p + old.length)).length ≤ g1 := by
          simp only [List.length_drop]; omega
        have hdl2 : (l.drop (p + old.length)).length ≤ g2 := by
          simp only [List.length_drop]; omega
        show l.take p ++ new ++
            specReplaceAux old new g1 (some (lastCharD old ' ')) (l.drop (p + old.length)) =
          l.take p ++ new ++
            specReplaceAux old new g2 (some (lastCharD old ' ')) (l.drop (p + old.length))
        rw [ih g2 _ _ hdl hdl2]

end JavisSpec

namespace JavisSpec

/-- The source's character walk computes the declarative replacement
(for a non-empty old name, at sufficient fuel). -/
theorem scanAux_eq_specReplaceAux (old new : PyStr) (h : old ≠ []) :
    ∀ (fuel : Nat) (prev : Option Char) (l : PyStr), l.length ≤ fuel →
    scanAux old new fuel prev l = specReplaceAux old new fuel prev l := by
  intro fuel
  induction fuel with
  | zero => intro prev l hl; rfl
  | succ g ih =>
    intro prev l hl
    cases l with
    | nil => simp [scanAux, specReplaceAux, firstFree]
    | cons c rest =>
      have hone : 1 ≤ old.length := by
        cases old with
        | nil => exact absurd rfl h
        | cons x xs => simp
      by_cases hf : freeHead old prev (c :: rest) = true
      · have hp0 : firstFree old prev (c :: rest) = some 0 := by
          simp [firstFree, hf]
        have hdlen : ((c :: rest).drop old.length).length ≤ g := by
          simp only [List.length_drop, List.length_cons] at *
          omega
        simp only [scanAux, hf, if_true, specReplaceAux, hp0, List.take_zero,
          List.nil_append, Nat.zero_add]
        rw [lastCharD_congr old h c ' ', ih _ _ hdlen]
      · have hb2 : Bool.not (freeHead old prev (c :: rest)) = true := by
          simp [hf]
        simp only [Bool.not_eq_true] at hf
        have hmap : firstFree old prev (c :: rest) =
            (firstFree old (some c) rest).map (· + 1) := by
          simp [firstFree, hf]
        have hrestlen : rest.length ≤ g := by
          simp only [List.length_cons] at hl; omega
        simp only [scanAux, hf, Bool.false_eq_true, if_false, specReplaceAux, hmap]
        cases hrest : firstFree old (some c) rest with
        | none =>
          simp only [Option.map_none']
          rw [ih _ _ hrestlen, specReplaceAux_of_none old new _ _ hrest]
        | some p =>
          simp only [Option.map_some']
          rw [ih _ _ hrestlen]
          have hfree := (firstFree_some_spec old h (some c) rest p hrest).1
          have hbnd := freeAt_bound old h (some c) rest p hfree
          cases g with
          | zero =>
            have : rest = [] := List.eq_nil_of_length_eq_zero (by omega)
            subst this
            simp [firstFree] at hrest
          | succ g2 =>
            show c :: specReplaceAux old new (g2 + 1) (some c) rest =
              List.take (p + 1) (c :: rest) ++ new ++
                specReplaceAux old new (g2 + 1) (some (lastCharD old ' '))
                  ((c :: rest).drop (p + 1 + old.length))
            simp only [specReplaceAux, hrest]
            have e2 : (c :: rest).drop (p + 1 + old.length) =
                rest.drop (p + old.length) := by
              rw [show p + 1 + old.length = (p + old.length) + 1 from by omega]
              rfl
            have e1 : List.take (p + 1) (c :: rest) = c :: List.take p rest := rfl
            rw [e1, e2]
            have hdl1 : (rest.drop (p + old.length)).length ≤ g2 := by
              simp only [List.length_drop]
              simp only [List.length_cons] at hl
              omega
            have hdl2 : (rest.drop (p + old.length)).length ≤ g2 + 1 := by omega
            show c :: (rest.take p ++ new ++
                specReplaceAux old new g2 (some (lastCharD old ' '))
                  (rest.drop (p + old.length))) =
              (c :: rest.take p) ++ new ++
                specReplaceAux old new (g2 + 1) (some (lastCharD old ' '))
                  (rest.drop (p + old.length))
            rw [specReplaceAux_fuel_invariant old new h g2 (g2 + 1) _ _ hdl1 hdl2]
            simp

/-- The per-line scan equals the declarative word-boundary replacement. -/
theorem wordScan_eq_wordReplaceSpec (old new l : PyStr) (h : old ≠ []) :
    wordScan old new l = wordReplaceSpec old new l :=
  scanAux_eq_specReplaceAux old new h l.length none l le_rfl

/-- Lines with no free occurrence are left unchanged. -/
theorem wordReplaceSpec_of_noFree (old new l : PyStr) (h : old ≠ [])
    (hall : ∀ p, freeAt old none l p = false) :
    wordReplaceSpec old new l = l :=
  specReplaceAux_of_none old new none l
    (((firstFree_none_iff old h) none l).mpr hall) l.length

/-- An occurrence anywhere implies substring containment. -/
theorem isPrefixOf_drop_containsSub (old : PyStr) :
    ∀ (p : Nat) (l : PyStr), old.isPrefixOf (l.drop p) = true →
    containsSub old l = true := by
  intro p
  induction p with
  | zero =>
    intro l hpre
    cases l with
    | nil =>
      have : old = [] := by
        cases old with
        | nil => rfl
        | cons c cs => simp [List.isPrefixOf] at hpre
      subst this
      simp [containsSub]
    | cons c rest =>
      have hpre2 : old.isPrefixOf (c :: rest) = true := by simpa using hpre
      simp only [containsSub, Bool.or_eq_true]
      exact Or.inl hpre2
  | succ q ih =>
    intro l hpre
    cases l with
    | nil =>
      have : old = [] := by
        cases old with
        | nil => rfl
        | cons c cs => simp [List.isPrefixOf] at hpre
      subst this
      simp [containsSub]
    | cons c rest =>
      have := ih rest hpre
      simp [containsSub, this]

/-- Without substring containment there is no free occurrence. -/
theorem not_containsSub_noFree (old l : PyStr) (prev : Option Char)
    (hnc : containsSub old l = false) :
    ∀ p, freeAt old prev l p = false := by
  intro p
  by_contra hx
  simp only [Bool.not_eq_false] at hx
  have hpre : old.isPrefixOf (l.drop p) = true := by
    simp only [freeAt, freeHead, Bool.and_eq_true] at hx
    exact hx.1.1
  rw [isPrefixOf_drop_containsSub old p l hpre] at hnc
  simp at hnc

/-- Lines not containing the old name are left unchanged by the
declarative replacement. -/
theorem wordReplaceSpec_of_not_contains (old new l : PyStr) (h : old ≠ [])
    (hnc : containsSub old l = false) :
    wordReplaceSpec old new l = l :=
  wordReplaceSpec_of_noFree old new l h (not_containsSub_noFree old l none hnc)

end JavisSpec

namespace JavisSpec

/-- In-range subscript reads succeed with the list element. -/
theorem pyGetI_ok (l : List PyStr) (i : Int) (h0 : 0 ≤ i) (h1 : i < l.length) :
    pyGetI l i = .ok (l.getD i.toNat []) := by
  have hn : i.toNat < l.length := by omega
  have hg : l.get? i.toNat = some (l.getD i.toNat []) := by
    rw [List.getD_eq_getElem?_getD]
    cases hx : l[i.toNat]? with
    | none =>
      rw [List.getElem?_eq_none_iff] at hx
      omega
    | some x => simp [List.get?_eq_getElem?, hx]
  simp only [pyGetI, pyIdxNorm]
  rw [if_neg (by omega), if_pos (by exact_mod_cast h1)]
  simp only [hg]

/-- In-range subscript writes succeed with the updated list. -/
theorem pySetI_ok (l : List PyStr) (i : Int) (v : PyStr) (h0 : 0 ≤ i)
    (h1 : i < l.length) :
    pySetI l i v = .ok (l.set i.toNat v) := by
  simp only [pySetI, pyIdxNorm]
  rw [if_neg (by omega), if_pos (by exact_mod_cast h1)]

/-- Length of the indexed map. -/
theorem mapWithIdxAux_length {α β : Type} (f : Nat → α → β) :
    ∀ (start : Nat) (l : List α), (mapWithIdxAux f start l).length = l.length := by
  intro start l
  induction l generalizing start with
  | nil => rfl
  | cons x rest ih => simp [mapWithIdxAux, ih]

/-- Entries of the indexed map. -/
theorem mapWithIdxAux_getD (f : Nat → PyStr → PyStr) :
    ∀ (l : List PyStr) (start i : Nat), i < l.length →
    (mapWithIdxAux f start l).getD i [] = f (start + i) (l.getD i []) := by
  intro l
  induction l with
  | nil => intro start i h; simp at h
  | cons x rest ih =>
    intro start i h
    cases i with
    | zero => simp [mapWithIdxAux, List.getD]
    | succ j =>
      have hj : j < rest.length := by simpa using h
      simp only [mapWithIdxAux, List.getD_cons_succ]
      rw [ih (start + 1) j hj]
      congr 1
      omega

/-- Out-of-range `getD` yields the default. -/
theorem getD_of_le (l : List PyStr) (i : Nat) (h : l.length ≤ i) :
    l.getD i [] = [] := by
  rw [List.getD_eq_getElem?_getD, List.getElem?_eq_none (by omega)]
  rfl

/-- Reading the just-set entry. -/
theorem getD_set_self (l : List PyStr) (k : Nat) (v : PyStr) (h : k < l.length) :
    (l.set k v).getD k [] = v := by
  induction l generalizing k with
  | nil => simp at h
  | cons x rest ih =>
    cases k with
    | zero => rfl
    | succ j =>
      have hj : j < rest.length := by simpa using h
      simpa [List.set, List.getD_cons_succ] using ih j hj

/-- Reading another entry after a set. -/
theorem getD_set_ne (l : List PyStr) (k i : Nat) (v : PyStr) (h : i ≠ k) :
    (l.set k v).getD i [] = l.getD i [] := by
  induction l generalizing k i with
  | nil => simp [List.set]
  | cons x rest ih =>
    cases k with
    | zero =>
      cases i with
      | zero => exact absurd rfl h
      | succ j => simp [List.set, List.getD_cons_succ]
    | succ k2 =>
      cases i with
      | zero => rfl
      | succ j =>
        simp only [List.set, List.getD_cons_succ]
        exact ih k2 j (by omega)

/-- The declarative replacement of the empty line is empty. -/
theorem wordReplaceSpec_nil (old new : PyStr) : wordReplaceSpec old new [] = [] := rfl

end JavisSpec

namespace JavisSpec

/-- Bind of a successful `Except` computation. -/
theorem except_bind_ok {α β : Type} (a : α) (f : α → Except PyExn β) :
    (Except.ok a >>= f) = f a := rfl

/-- C5.  For a resolving `rename_class` intent: the operation succeeds;
the class's definition line (at `line_start`) is rewritten by
`renameDefLine` (splicing the new name over the old one after the
`class` keyword); every other line becomes `wordReplaceSpec old new` —
the declarative replacement of exactly those occurrences of the old name
not adjacent to an alphanumeric character on either side (`freeAt`),
leftmost first, all other characters preserved.  The final three
conjuncts certify the declarative reading: lines with no free occurrence
(in particular lines where the name only occurs inside longer
identifiers such as `AnimalCount`) are unchanged, and the search used by
the replacement returns the least free position. -/
theorem rename_class_wholeword
    (lines : List PyStr) (analysis : GenAnalysis) (intent : Intent)
    (o n k : PyStr) (ci : ClassInfo)
    (ha : intent.action = some (pys "rename_class"))
    (ho : intent.old_name = some o) (hn : intent.new_name = some n)
    (ho2 : o ≠ []) (hn2 : n ≠ [])
    (hfind : findClassCI analysis.classes o = some (k, ci))
    (hk : k ≠ [])
    (h1 : 1 ≤ ci.location.line_start)
    (h2 : ci.location.line_start ≤ (lines.length : Int))
    (hcs : 0 ≤ pyFind (lines.getD (ci.location.line_start - 1).toNat []) (pys "class") 0) :
    (∃ out : List PyStr,
      renameClass lines analysis intent = .ok (joinLines out) ∧
      out.length = lines.length ∧
      out.getD (ci.location.line_start - 1).toNat [] =
        renameDefLine k n (lines.getD (ci.location.line_start - 1).toNat []) ∧
      (∀ i : Nat, i ≠ (ci.location.line_start - 1).toNat →
        out.getD i [] = wordReplaceSpec k n (lines.getD i []))) ∧
    (∀ line : PyStr, (∀ p, freeAt k none line p = false) →
      wordReplaceSpec k n line = line) ∧
    (∀ line : PyStr, containsSub k line = false →
      wordReplaceSpec k n line = line) ∧
    (∀ (line : PyStr) (p : Nat), firstFree k none line = some p →
      freeAt k none line p = true ∧ ∀ q < p, freeAt k none line q = false) := by
  have hoe : o.isEmpty = false := by
    cases o with | nil => exact absurd rfl ho2 | cons a b => rfl
  have hne : n.isEmpty = false := by
    cases n with | nil => exact absurd rfl hn2 | cons a b => rfl
  have hget := pyGetI_ok lines (ci.location.line_start - 1) (by omega) (by omega)
  have hset := fun v => pySetI_ok lines (ci.location.line_start - 1) v (by omega) (by omega)
  have hkn : (ci.location.line_start - 1).toNat < lines.length := by omega
  have hcast : (((ci.location.line_start - 1).toNat : Nat) : Int) =
      ci.location.line_start - 1 := Int.toNat_of_nonneg (by omega)
  have hrc : renameClass lines analysis intent =
      .ok (joinLines (mapWithIdx (fun idx line =>
        if (idx : Int) = ci.location.line_start - 1 then line
        else if containsSub k line then wordScan k n line
        else line)
        (lines.set (ci.location.line_start - 1).toNat
          (renameDefLine k n (lines.getD (ci.location.line_start - 1).toNat []))))) := by
    simp only [renameClass, ha, ho, hn, pyTruthyS, hoe, hne, Bool.not_false, Bool.not_true,
      Bool.false_or, Bool.or_self, Bool.false_eq_true, if_false, Option.getD_some, hfind,
      hget, hset, except_bind_ok, ge_iff_le, hcs, if_true, renameDefLine, ne_eq,
      not_true, eq_self_iff_true]
  refine ⟨⟨_, hrc, ?_, ?_, ?_⟩,
    fun line hall => wordReplaceSpec_of_noFree k n line hk hall,
    fun line hnc => wordReplaceSpec_of_not_contains k n line hk hnc,
    fun line p hp => firstFree_some_spec k hk none line p hp⟩
  · rw [mapWithIdx, mapWithIdxAux_length, List.length_set]
  · rw [mapWithIdx, mapWithIdxAux_getD _ _ 0 _ (by rw [List.length_set]; exact hkn),
      Nat.zero_add, getD_set_self _ _ _ hkn, if_pos hcast]
  · intro i hi
    by_cases hlen : i < lines.length
    · rw [mapWithIdx, mapWithIdxAux_getD _ _ 0 i (by rw [List.length_set]; exact hlen),
        Nat.zero_add, getD_set_ne _ _ _ _ hi]
      have hline : ((i : Nat) : Int) ≠ ci.location.line_start - 1 := by
        intro he
        exact hi (by omega)
      rw [if_neg hline]
      by_cases hc2 : containsSub k (lines.getD i []) = true
      · rw [if_pos hc2, wordScan_eq_wordReplaceSpec k n _ hk]
      · simp only [Bool.not_eq_true] at hc2
        have hc3 : containsSub k (lines[i]?.getD []) = false := by
          rw [← List.getD_eq_getElem?_getD]
          exact hc2
        rw [if_neg (by simp [hc3]), wordReplaceSpec_of_not_contains k n _ hk hc2]
    · have hge : lines.length ≤ i := by omega
      rw [getD_of_le _ _ (by rw [mapWithIdx, mapWithIdxAux_length, List.length_set]; omega),
        getD_of_le lines i hge, wordReplaceSpec_nil]

/-- Two-class-reference source for the C5 witness: line 3 holds both an
embedded occurrence (`AnimalCount`) and a free-standing one. -/
def renameSrc : PyStr := pys "class Animal:\n    pass\nAnimalCount = Animal"

/-- Inventory entry for `renameSrc`. -/
def renameInfo : ClassInfo :=
  { name := pys "Animal"
    location := { line_start := 1, line_end := 2, col_start := 0, col_end := 8 }
    bases := [], methods := [], attributes := [] }

/-- Analysis of `renameSrc` as the generator consumes it. -/
def renameAnalysis : GenAnalysis := { classes := [(pys "Animal", renameInfo)] }

/-- Rename intent for the C5 witness. -/
def renameIntent : Intent :=
  { action := some (pys "rename_class"), old_name := some (pys "Animal"),
    new_name := some (pys "Mammal") }

/-- C5 (witness): the theorem applies to the concrete `renameSrc`
instance, and the declarative replacement leaves the `AnimalCount`
prefix alone while replacing the free-standing occurrence. -/
theorem rename_class_wholeword_witness :
    (∃ out : List PyStr,
      renameClass (splitLines renameSrc) renameAnalysis renameIntent =
        .ok (joinLines out) ∧
      out.length = (splitLines renameSrc).length ∧
      (∀ i : Nat, i ≠ 0 →
        out.getD i [] =
          wordReplaceSpec (pys "Animal") (pys "Mammal")
            ((splitLines renameSrc).getD i []))) ∧
    wordReplaceSpec (pys "Animal") (pys "Mammal") (pys "AnimalCount = Animal") =
      pys "AnimalCount = Mammal" := by
  obtain ⟨⟨out, hout, hlen, _, hother⟩, _, _, _⟩ :=
    rename_class_wholeword (splitLines renameSrc) renameAnalysis renameIntent
      (pys "Animal") (pys "Mammal") (pys "Animal") renameInfo
      rfl rfl rfl (by decide) (by decide) rfl (by decide) (by decide) (by decide)
      (by decide)
  exact ⟨⟨out, hout, hlen, fun i hi => hother i hi⟩, by decide⟩

end JavisSpec
